import Mathlib

/-!
# sophia: the engine front end (`db/sp.c`)

A shallow embedding of the environment, the default comparator, the
transaction state machine and the two write paths (`sp_do`, `sp_commit`)
of `db/sp.c`, followed by the properties established about them.

Conventions of the embedding:

* a C function that takes a handle and returns `int` becomes a function
  returning the `int` together with the handle's state after the call;
* a call that dereferences a null pointer, divides by zero or trips an
  `assert` has no result: such functions return an `Option`;
* services that may fail for reasons outside the engine (allocation, log
  writes, log truncation) take their outcome from an `spsys` value;
* functions and constants that `sp.c` uses but that are declared in other
  files of the repository are modelled from the specification; each such
  definition says so in its doc comment.
-/

namespace Sophia

/-! ## Byte strings and the default comparator -/

/-- A byte string `(char *p, size_t n)`: the `n` bytes at `p`, each an
`unsigned char` value. -/
abbrev Bytes := List Nat

/-- The libc `memcmp(a, b, n)`: the difference of the first pair of differing
bytes among the first `n`, `0` when there is none.  Only its sign is fixed by
the C standard, and only its sign is used by the callers. -/
def memcmp : Bytes → Bytes → Nat → Int
  | a :: as, b :: bs, n + 1 => if a = b then memcmp as bs n else (a : Int) - (b : Int)
  | _, _, _ => 0

/-- The default comparator `cmpstd` (sp.c:12-17). -/
def cmpstd (a b : Bytes) : Int :=
  let sz := if a.length < b.length then a.length else b.length
  let rc := memcmp a b sz
  if rc = 0 then rc else (if rc > 0 then 1 else -1)

/-! ## Error slots -/

/-- Error kinds of an error slot; `SPENONE` is the empty slot.  The fatal
flag `SPEF`, or-ed into the kind by the callers, is the field `fatal` of
`spe`. -/
inductive spetype where
  | SPENONE
  | SPE
  | SPEOOM
  | SPESYS
  | SPEIO
  deriving DecidableEq, Repr

open spetype

/-- An error slot `spe`: kind, fatal flag and message. -/
structure spe where
  type : spetype
  fatal : Bool
  e : String
  deriving DecidableEq, Repr

/-- Modelled from the spec: `sp_einit` (declared outside sp.c) empties an
error slot. -/
def sp_einit : spe := { type := SPENONE, fatal := false, e := "" }

/-- Modelled from the spec: `sp_eis` (declared outside sp.c) tells whether an
error slot holds an error. -/
def sp_eis (e : spe) : Bool := e.type != SPENONE || e.fatal

/-- Modelled from the spec: the recording primitive behind `sp_e`, `sp_ee`
and `sp_ef` (declared outside sp.c).  "The first error recorded on an engine
is retained": a slot that already holds an error is left as it is. -/
def sp_ve (e : spe) (t : spetype) (f : Bool) (msg : String) : spe :=
  if sp_eis e then e else { type := t, fatal := f, e := msg }

/-- Modelled from the spec: `sp_esetfatal` (declared outside sp.c) puts the
fatal marker on an error slot. -/
def sp_esetfatal (e : spe) : spe := { e with fatal := true }

/-! ## Environment -/

/-- The environment `spenv`.  Pointers to functions and their arguments are
kept as handles (`Nat`), except the comparator, which the indexes call. -/
structure spenv where
  inuse : Bool
  e : spe
  alloc : Nat
  allocarg : Nat
  cmp : Bytes → Bytes → Int
  cmparg : Nat
  page : Nat
  dir : Option String
  flags : Nat
  mergewm : Nat
  merge : Int
  dbnewsize : Nat
  dbgrow : Rat
  gc : Int
  gcfactor : Rat

/-- The initial environment `sp_envinit` (sp.c:19-36); handle `0` stands for
`sp_allocstd` and for `NULL`. -/
def sp_envinit : spenv :=
  { inuse := false, e := sp_einit, alloc := 0, allocarg := 0, cmp := cmpstd,
    cmparg := 0, page := 2048, dir := none, flags := 0, mergewm := 100000,
    merge := 1, dbnewsize := 2 * 1024 * 1024, dbgrow := 14 / 10, gc := 1,
    gcfactor := 1 / 2 }

/-- Modelled from the spec: `sp_ee` (declared outside sp.c) records an error
in the environment error slot and returns `-1`. -/
def sp_ee (e : spenv) (t : spetype) (msg : String) : Int × spenv :=
  (-1, { e with e := sp_ve e.e t false msg })

/-- The validation `sp_envvalidate` (sp.c:46-64). -/
def sp_envvalidate (e : spenv) : Int × spenv :=
  if e.inuse then (-1, e)
  else if e.dir = none then sp_ee e SPE "directory is not specified"
  else if e.mergewm < 2 then sp_ee e SPE "bad merge watermark count"
  else if e.page < 2 then sp_ee e SPE "bad page size"
  else if e.page % 2 > 0 then sp_ee e SPE "bad page size must be even"
  else (0, e)

/-- Modelled from the spec: the flag bit `SPO_RDONLY` of the public header
(not under src/); any single bit behaves alike. -/
def SPO_RDONLY : Nat := 1

/-- The test `e->flags & SPO_RDONLY` of sp.c:349, 684, 701. -/
def sp_rdonly (e : spenv) : Bool := e.flags &&& SPO_RDONLY != 0

/-- The environment branch of `sp_error` (sp.c:435-439): the message of the
environment error slot, or null. -/
def sp_error_env (e : spenv) : Option String :=
  if !sp_eis e.e then none else some e.e.e

/-! ## Versions and key indexes -/

/-- Modelled from the spec: the operation flags of a version (declared
outside sp.c): "SET=1, DEL=2". -/
def SPSET : Nat := 1

/-- Modelled from the spec: the flag of a delete record, see `SPSET`. -/
def SPDEL : Nat := 2

/-- A version `spv`: the key and value bytes with the epoch stamp, the
operation flags and the CRC of key and value. -/
structure spv where
  epoch : Nat
  crc : Nat
  flags : Nat
  key : Bytes
  value : Bytes
  deriving DecidableEq, Repr

/-- A key index `spi`: its versions in comparator order. -/
structure spi where
  l : List spv
  deriving DecidableEq, Repr

/-- The field `count` of an index. -/
def spi.count (i : spi) : Nat := i.l.length

/-- Modelled from the spec: insertion into the ordered version list behind
`sp_iset` (declared outside sp.c), last writer wins: a version whose key
compares equal is replaced and handed back, otherwise the new version goes
before the first greater one. -/
def sp_isetl (cmp : Bytes → Bytes → Int) : List spv → spv → List spv × Option spv
  | [], v => ([v], none)
  | x :: xs, v =>
    if cmp x.key v.key = 0 then (v :: xs, some x)
    else if cmp x.key v.key > 0 then (v :: x :: xs, none)
    else ((sp_isetl cmp xs v).1.cons x, (sp_isetl cmp xs v).2)

/-- Modelled from the spec: a successful `sp_iset(i, v, &old)` (declared
outside sp.c); its failure (no memory for an index page) is decided by the
caller from `spsys`. -/
def sp_iset (cmp : Bytes → Bytes → Int) (i : spi) (v : spv) : spi × Option spv :=
  ({ l := (sp_isetl cmp i.l v).1 }, (sp_isetl cmp i.l v).2)

/-- Modelled from the spec: key lookup in the ordered version list, the
search that `sp_isetl` performs. -/
def sp_igetl (cmp : Bytes → Bytes → Int) : List spv → Bytes → Option spv
  | [], _ => none
  | x :: xs, k =>
    if cmp x.key k = 0 then some x
    else if cmp x.key k > 0 then none
    else sp_igetl cmp xs k

/-! ## Log files, batches and record headers -/

/-- The record header `spvh`. -/
structure spvh where
  crc : Nat
  size : Nat
  voffset : Nat
  vsize : Nat
  flags : Nat
  deriving DecidableEq, Repr

/-- The `w` low bytes of `x`, least significant first. -/
def le_bytes : Nat → Nat → Bytes
  | 0, _ => []
  | w + 1, x => (x % 256) :: le_bytes w (x / 256)

/-- Modelled from the spec: the bytes of a header after its `crc` field, in
the layout of the on-disk format `VH` (`size:u16, voffset:u32, vsize:u32,
flags:u8`), the range `&h.size, sizeof(spvh) - sizeof(uint32_t)` of
sp.c:518, 608. -/
def spvh_tail (h : spvh) : Bytes :=
  le_bytes 2 h.size ++ le_bytes 4 h.voffset ++ le_bytes 4 h.vsize ++ le_bytes 1 h.flags

/-- Modelled from the spec: `sizeof(spvh)` for the layout of `spvh_tail`. -/
def sizeof_spvh : Nat := 15

/-- What a log file holds: the log header written by `sp_rotate`, record
headers, key or value bytes, and the EOF marker.  A batch segment is a
pointer with a length; `stale` is a segment that a call left in the batch
when it returned: it points to the header buffer of that call, to the
buffers of its caller or to a released version, so its content is not
defined. -/
inductive spseg where
  | logh
  | vh (h : spvh)
  | buf (b : Bytes)
  | eof
  | stale
  deriving DecidableEq, Repr

/-- A log file `spfile`: its content and the savepoint, an offset into the
content. -/
structure spfile where
  data : List spseg
  svp : Nat
  deriving DecidableEq, Repr

/-- Modelled from the spec: `sp_filesvp` (declared outside sp.c) snapshots the
file offset. -/
def sp_filesvp (f : spfile) : spfile := { f with svp := f.data.length }

/-- Modelled from the spec: `sp_batchadd` (declared outside sp.c) appends one
segment to a batch.  The batch of the engine is its field `s->lb`, which
operations add to and write, and which nothing in sp.c empties. -/
def sp_batchadd (b : List spseg) (x : spseg) : List spseg := b ++ [x]

/-- Modelled from the spec: `sp_batchensure(b, n)` (declared outside sp.c):
the residual capacity of the batch holds `n` more segments; `iovmax` is the
capacity. -/
def sp_batchensure (iovmax : Nat) (b : List spseg) (n : Nat) : Bool :=
  b.length + n ≤ iovmax

/-- Modelled from the spec: `sp_batchhas` (declared outside sp.c): the batch
holds a segment. -/
def sp_batchhas (b : List spseg) : Bool := !b.isEmpty

/-- Modelled from the spec: `sp_logput` (declared outside sp.c) writes the
batch at the end of the log; `ok` is the outcome of the write. -/
def sp_logput (ok : Bool) (f : spfile) (b : List spseg) : Int × spfile :=
  if ok then (0, { f with data := f.data ++ b }) else (-1, f)

/-- Modelled from the spec: the batch after `sp_logput` (declared outside
sp.c): a successful write empties it ("a batch is flushed by put"); what a
failed write leaves in it is not specified, `keep` says whether the segments
stay. -/
def sp_logputlb (ok keep : Bool) (b : List spseg) : List spseg :=
  if ok then [] else if keep then b else []

/-- The batch that a call leaves behind when it returns: as many segments as
it held, their content no longer defined. -/
def sp_batchstale (b : List spseg) : List spseg := b.map (fun _ => spseg.stale)

/-- Modelled from the spec: `sp_logrlb` (declared outside sp.c) cuts the log
back to the savepoint; `ok` is the outcome of the truncation. -/
def sp_logrlb (ok : Bool) (f : spfile) : Int × spfile :=
  if ok then (0, { f with data := f.data.take f.svp }) else (-1, f)

/-! ## Epochs and the repository -/

/-- The state of an epoch. -/
inductive spepochtype where
  | SPUNDEF
  | SPLIVE
  | SPXFER
  | SPDB
  deriving DecidableEq, Repr

open spepochtype

/-- An epoch `spepoch`: id, state, update counter and log file.  The width
of `nupdate` is declared outside sp.c; it is kept unbounded. -/
structure spepoch where
  epoch : Nat
  type : spepochtype
  nupdate : Nat
  log : spfile
  deriving DecidableEq, Repr

/-- The repository `sprep`: the list of epochs, the epoch counter and the
counters of epochs by state. -/
structure sprep where
  l : List spepoch
  epoch : Nat
  n : Nat
  ndb : Nat
  nxfer : Nat
  deriving DecidableEq, Repr

/-- Modelled from the spec: `sp_replive` (declared outside sp.c) gives the
live epoch, "the unique epoch currently accepting appends"; there is none in
a repository without a `LIVE` epoch. -/
def sp_replive (r : sprep) : Option spepoch := r.l.find? (fun e => e.type = SPLIVE)

/-- Stores through the pointer returned by `sp_replive`: the live epoch of
the list is replaced by its updated value. -/
def sp_repputl (e : spepoch) : List spepoch → List spepoch
  | [] => []
  | x :: xs => if x.type = SPLIVE then e :: xs else x :: sp_repputl e xs

/-- Stores through the pointer returned by `sp_replive`, see `sp_repputl`. -/
def sp_repput (r : sprep) (e : spepoch) : sprep := { r with l := sp_repputl e r.l }

/-! ## The engine -/

/-- The transaction mode: single-statement or multi-statement. -/
inductive sptxn where
  | SPTSS
  | SPTMS
  deriving DecidableEq, Repr

open sptxn

/-- The engine `sp`: the fields that sp.c reads or writes on the write and
transaction paths.  `i` is the index `s->i` points to, `lb` is the log batch
`s->lb`, `wakeups` counts the calls of `sp_taskwakeup` on the merger.  The
locks are not part of the state: one thread calls the interface at a time. -/
structure sp where
  env : spenv
  e : spe
  em : spe
  i : spi
  itxn : spi
  txn : sptxn
  lockc : Nat
  rep : sprep
  stop : Bool
  wakeups : Nat
  lb : List spseg

/-- What an operation gets from outside sp.c: the CRC-32C routine
`sp_crc32c`, the capacity of a log batch in segments, and the outcomes of the
services that may fail during the call: the allocation of a version, the
index insert and the log write of the `j`-th record (the closing log write
of a commit of `n` records has number `n`), the log rollback and the
truncation of the staging index; `lbkeep` says whether a failed log write
leaves the segments in the batch. -/
structure spsys where
  crc32c : Nat → Bytes → Nat
  iovmax : Nat
  vnew : Bool
  iset : Nat → Bool
  logput : Nat → Bool
  logrlb : Bool
  itruncate : Bool
  lbkeep : Bool

/-- Modelled from the spec: `sp_e` (declared outside sp.c) records an error
in the engine error slot and returns `-1`; `f` is the flag `SPEF`. -/
def sp_e (s : sp) (t : spetype) (f : Bool) (msg : String) : Int × sp :=
  (-1, { s with e := sp_ve s.e t f msg })

/-- Modelled from the spec: `sp_evalidate` (declared outside sp.c): "a fatal
marker on the engine error slot causes all subsequent API operations to fail
fast". -/
def sp_evalidate (s : sp) : Bool := s.e.fatal

/-- Modelled from the spec: `sp_taskwakeup` (declared outside sp.c) on the
merger task. -/
def sp_taskwakeup (s : sp) : sp := { s with wakeups := s.wakeups + 1 }

/-- Modelled from the spec: `sp_vnewv` (declared outside sp.c) allocates a
version holding copies of the key and the value; null without memory. -/
def sp_vnewv (o : spsys) (k v : Bytes) : Option spv :=
  if o.vnew then some { epoch := 0, crc := 0, flags := 0, key := k, value := v } else none

/-- The header of a record as both write paths compose it (sp.c:513-518,
597-608): `crc` zero, then the sizes and flags narrowed to their fields,
then the CRC of the header tail chained to the CRC `crc` of key and value. -/
def sp_vhmake (o : spsys) (crc ksize vsize flags : Nat) : spvh :=
  let h : spvh :=
    { crc := 0, size := ksize % 65536, voffset := 0, vsize := vsize % 4294967296,
      flags := flags % 256 }
  { h with crc := o.crc32c crc (spvh_tail h) }

/-- The transaction start `sp_begin` (sp.c:453-465). -/
def sp_begin (s : sp) : Int × sp :=
  if sp_evalidate s then (-1, s)
  else if s.txn = SPTMS then (-1, s)
  else if s.lockc ≠ 0 then sp_e s SPE false "begin with open cursor"
  else (0, { s with txn := SPTMS })

/-- The transaction rollback `sp_rollback` (sp.c:568-583).  Modelled from the
spec: `sp_itruncate` (declared outside sp.c) "destroys both the references
and the owned Vs"; the staging index is empty after it also when it reports
that no page could be allocated. -/
def sp_rollback (o : spsys) (s : sp) : Int × sp :=
  if sp_evalidate s then (-1, s)
  else if s.txn = SPTSS then sp_e s SPE false "no active transaction to rollback"
  else if s.lockc ≠ 0 then sp_e s SPE false "rollback with open cursor"
  else if o.itruncate = false then
    sp_e { s with itxn := { l := [] } } SPEOOM false "failed to allocate key index page"
  else (0, { s with itxn := { l := [] }, txn := SPTSS })

/-- The version that `sp_do` builds from its arguments (sp.c:593, 606-611):
the allocated copy with the operation flags and the CRC of key and value. -/
def sp_do_version (o : spsys) (op : Nat) (k v : Bytes) (n : spv) : spv :=
  { n with flags := op, crc := o.crc32c (o.crc32c 0 k) v }

/-- The failure exits of the single-statement path of `sp_do` (sp.c:639-642,
653-656): the log is rolled back to the savepoint and the engine is marked
fatal when the rollback fails; the result is the return code of the
rollback with the engine after it. -/
def sp_do_rlb (o : spsys) (s : sp) (live : spepoch) (log : spfile) : Int × sp :=
  let r := sp_logrlb o.logrlb log
  let s1 := if r.1 = -1 then { s with e := sp_esetfatal s.e } else s
  (r.1, { s1 with rep := sp_repput s1.rep { live with log := r.2 } })

/-- The single record write `sp_do` (sp.c:585-676).  The record is added to
the batch `s->lb` after whatever the batch holds, and the batch is written
as a whole (sp.c:634-637).  No result when there is no live epoch (`live` is
null) or when `mergewm` is zero (the remainder of sp.c:671). -/
def sp_do (o : spsys) (s : sp) (op : Nat) (k v : Bytes) : Option (Int × sp) :=
  match sp_vnewv o k v with
  | none => some (sp_e s SPEOOM false "failed to allocate version")
  | some n0 =>
    let h := sp_vhmake o (o.crc32c (o.crc32c 0 k) v) k.length v.length op
    let n := sp_do_version o op k v n0
    if s.txn = SPTMS then
      if o.iset 0 = false then
        some (sp_e s SPEOOM false "failed to allocate transacton key index page")
      else some (0, { s with itxn := (sp_iset s.env.cmp s.itxn n).1 })
    else
      match sp_replive s.rep with
      | none => none
      | some live =>
        let log := sp_filesvp live.log
        let lb :=
          sp_batchadd (sp_batchadd (sp_batchadd s.lb (spseg.vh h)) (spseg.buf k)) (spseg.buf v)
        let w := sp_logput (o.logput 0) log lb
        if w.1 = -1 then
          some (sp_e (sp_do_rlb o
            { s with lb := sp_batchstale (sp_logputlb false o.lbkeep lb) } live w.2).2
            SPEIO false "failed to write log file")
        else if o.iset 0 = false then
          let r := sp_do_rlb o { s with lb := [] } live w.2
          if r.1 = -1 then some (-1, r.2)
          else some (sp_e r.2 SPEOOM false "failed to allocate key index page")
        else if s.env.mergewm = 0 then none
        else
          let live1 := { live with log := w.2, nupdate := live.nupdate + 1 }
          let s1 :=
            { s with i := (sp_iset s.env.cmp s.i { n with epoch := live.epoch }).1,
                     rep := sp_repput s.rep live1, lb := [] }
          some (0, if live1.nupdate % s.env.mergewm = 0 ∧ s.env.merge ≠ 0
                   then sp_taskwakeup s1 else s1)

/-- The write `sp_set` (sp.c:678-693); `ksize` and `vsize` are the lengths of
`k` and `v`. -/
def sp_set (o : spsys) (s : sp) (k v : Bytes) : Option (Int × sp) :=
  if sp_evalidate s then some (-1, s)
  else if sp_rdonly s.env then some (sp_e s SPE false "db handle is read-only")
  else if k.length > 65535 then some (sp_e s SPE false "key size limit reached")
  else if v.length > 4294967295 then some (sp_e s SPE false "value size limit reached")
  else if s.lockc ≠ 0 then some (sp_e s SPE false "modify with open cursor")
  else sp_do o s SPSET k v

/-- The delete `sp_delete` (sp.c:695-708). -/
def sp_delete (o : spsys) (s : sp) (k : Bytes) : Option (Int × sp) :=
  if sp_evalidate s then some (-1, s)
  else if sp_rdonly s.env then some (sp_e s SPE false "db handle is read-only")
  else if k.length > 65535 then some (sp_e s SPE false "key size limit reached")
  else if s.lockc ≠ 0 then some (sp_e s SPE false "modify with open cursor")
  else sp_do o s SPDEL k []

/-- Modelled from the spec: `sp_match` (declared outside sp.c), the key
matching behind `sp_get`, as far as the memory index goes: `1` with the
value of the version found, `0` when there is none or it is a delete.  The
page files of merged epochs are outside this model. -/
def sp_match (s : sp) (k : Bytes) : Int × Option Bytes :=
  match sp_igetl s.env.cmp s.i.l k with
  | none => (0, none)
  | some v => if v.flags = SPDEL then (0, none) else (1, some v.value)

/-- The read `sp_get` (sp.c:710-719): return code, value found and engine
after the call. -/
def sp_get (s : sp) (k : Bytes) : Int × Option Bytes × sp :=
  if sp_evalidate s then (-1, none, s)
  else if k.length > 65535 then (-1, none, (sp_e s SPE false "key size limit reached").2)
  else ((sp_match s k).1, (sp_match s k).2, s)

/-- The engine branch of `sp_error` (sp.c:445-450). -/
def sp_error (s : sp) : Option String :=
  if sp_eis s.em then some s.em.e
  else if sp_eis s.e then some s.e.e
  else none

/-! ## Commit -/

/-- The variables of the loop of `sp_commit`: the live log, the batch `s->lb`,
the header position `hpos`, the memory index, the staged versions visited so
far, as the loop left them, and the number `ins` of versions it has inserted
into the memory index. -/
structure spcommit where
  log : spfile
  lb : List spseg
  hpos : Nat
  i : spi
  seen : List spv
  ins : Nat

/-- How the loop of `sp_commit` ends: it ran through the staging index, it
jumped to `abort` after recording an error (with the staged versions not yet
visited), or the assertion of sp.c:511 failed. -/
inductive spcommitr where
  | ok (c : spcommit)
  | abort (c : spcommit) (rest : List spv) (t : spetype) (msg : String)
  | assertfail

/-- The flush at the head of the loop body of `sp_commit` (sp.c:501-508) when
the log write succeeds or is not needed: a batch without room for three
more segments is written to the log, which empties it and resets `hpos`. -/
def sp_commit_flush (o : spsys) (j : Nat) (c : spcommit) : spcommit :=
  if sp_batchensure o.iovmax c.lb 3 = false then
    { c with log := (sp_logput (o.logput j) c.log c.lb).2, lb := [], hpos := 0 }
  else c

/-- The record of the stamped version `v` added in the loop body of
`sp_commit` (sp.c:512-522): its header, composed at `hbuf + hpos`, its key
and its value go to the batch, and `hpos` moves on by one header. -/
def sp_commit_add (o : spsys) (c : spcommit) (v : spv) : spcommit :=
  { c with
    lb := sp_batchadd (sp_batchadd (sp_batchadd c.lb
            (spseg.vh (sp_vhmake o v.crc v.key.length v.value.length v.flags)))
            (spseg.buf v.key)) (spseg.buf v.value),
    hpos := c.hpos + sizeof_spvh,
    seen := c.seen ++ [v] }

/-- The loop of `sp_commit` (sp.c:498-533) over the staged versions in
iteration order; `j` numbers the version at hand and `epoch` is the id of
the live epoch.  The body: flush the batch when it has no room (a failed
log write aborts), stamp the version, check the assertion on `hpos`, add
the record to the batch, insert the version into the memory index (a failed
insert aborts). -/
def sp_commit_loop (o : spsys) (cmp : Bytes → Bytes → Int) (epoch : Nat) :
    List spv → Nat → spcommit → spcommitr
  | [], _, c => spcommitr.ok c
  | v :: vs, j, c =>
    if sp_batchensure o.iovmax c.lb 3 = false ∧ (sp_logput (o.logput j) c.log c.lb).1 = -1 then
      spcommitr.abort { c with lb := sp_logputlb false o.lbkeep c.lb } (v :: vs)
        SPEIO "failed to write log file"
    else if ¬ ((sp_commit_flush o j c).hpos < sizeof_spvh * 512) then spcommitr.assertfail
    else if o.iset j = false then
      spcommitr.abort (sp_commit_add o (sp_commit_flush o j c) { v with epoch := epoch }) vs
        SPEOOM "failed to allocate key index page"
    else
      sp_commit_loop o cmp epoch vs (j + 1)
        { sp_commit_add o (sp_commit_flush o j c) { v with epoch := epoch } with
          i := (sp_iset cmp (sp_commit_flush o j c).i { v with epoch := epoch }).1,
          ins := (sp_commit_flush o j c).ins + 1 }

/-- The exit `abort` of `sp_commit` (sp.c:504, 527, 538, 560-565) after the
error `t | SPEF` was recorded: `sp_rollback`, then the rollback of the live
log, whose return code is dropped.  `c` holds the live log, the batch and
the memory index as the loop left them and `staged` the staging index with
the stamps the loop put on the versions it visited.  Nothing empties the
batch: its segments stay in `s->lb`.  No result when `sp_rollback` reaches
`sp_itruncate` (the engine is not fatal: its error slot already held an
error) after the loop inserted a version into the memory index:
`sp_itruncate` releases the staged versions, which the memory index still
points to, a state this model does not represent. -/
def sp_commit_abort (o : spsys) (s : sp) (live : spepoch) (c : spcommit)
    (staged : List spv) (t : spetype) (msg : String) : Option (Int × sp) :=
  let s1 :=
    (sp_e { s with i := c.i, itxn := { l := staged }, lb := sp_batchstale c.lb } t true msg).2
  let s2 := (sp_rollback o s1).2
  if c.ins ≠ 0 ∧ sp_evalidate s1 = false ∧ s1.txn = SPTMS ∧ s1.lockc = 0 then none
  else
    some (-1,
      { s2 with rep := sp_repput s2.rep { live with log := (sp_logrlb o.logrlb c.log).2 } })

/-- The commit `sp_commit` (sp.c:467-566).  The loop starts with whatever
the batch `s->lb` holds.  No result when the staging index is not empty and
there is no live epoch (`live` is null), when the assertion on `hpos` fails,
or when the exit `abort` has none. -/
def sp_commit (o : spsys) (s : sp) : Option (Int × sp) :=
  if sp_evalidate s then some (-1, s)
  else if s.txn = SPTSS then some (sp_e s SPE false "no active transaction to commit")
  else if s.lockc ≠ 0 then some (sp_e s SPE false "commit with open cursor")
  else if s.itxn.count = 0 then some (0, { s with txn := SPTSS })
  else
    match sp_replive s.rep with
    | none => none
    | some live =>
      match sp_commit_loop o s.env.cmp live.epoch s.itxn.l 0
          { log := sp_filesvp live.log, lb := s.lb, hpos := 0, i := s.i, seen := [],
            ins := 0 } with
      | spcommitr.assertfail => none
      | spcommitr.abort c rest t msg => sp_commit_abort o s live c (c.seen ++ rest) t msg
      | spcommitr.ok c =>
        if sp_batchhas c.lb = true ∧ (sp_logput (o.logput s.itxn.count) c.log c.lb).1 = -1 then
          sp_commit_abort o s live
            { c with lb := sp_logputlb false o.lbkeep c.lb } c.seen SPEIO
            "failed to write log file"
        else
          let log :=
            if sp_batchhas c.lb then (sp_logput (o.logput s.itxn.count) c.log c.lb).2 else c.log
          let live1 := { live with log := log, nupdate := live.nupdate + s.itxn.count }
          let s1 := { s with i := c.i, itxn := { l := [] }, txn := SPTSS,
                             rep := sp_repput s.rep live1,
                             lb := if sp_batchhas c.lb then [] else c.lb }
          some (0, if live1.nupdate ≥ s.env.mergewm ∧ s.env.merge ≠ 0
                   then sp_taskwakeup s1 else s1)

/-- The staging index as the loop of `sp_commit` leaves it: the versions
visited, with their stamps, followed by those not yet visited. -/
def spcommitr.staged : spcommitr → Option (List spv)
  | spcommitr.ok c => some c.seen
  | spcommitr.abort c rest _ _ => some (c.seen ++ rest)
  | spcommitr.assertfail => none

/-! ## Sequences of writes -/

/-- One write request: `sp_set(k, v)` or `sp_delete(k)`. -/
inductive spop where
  | set (k v : Bytes)
  | del (k : Bytes)

/-- One write request run on the engine. -/
def sp_write (o : spsys) (s : sp) : spop → Option (Int × sp)
  | spop.set k v => sp_set o s k v
  | spop.del k => sp_delete o s k

/-- A sequence of write requests run one after the other, each with the
outcomes its services have; the return codes are dropped. -/
def sp_writes : List (spsys × spop) → sp → Option sp
  | [], s => some s
  | (o, w) :: ws, s =>
    match sp_write o s w with
    | none => none
    | some r => sp_writes ws r.2

/-- The version that `sp_do` builds for a write request (sp.c:593, 606-611),
before any epoch is stamped on it: the flags are `SPSET` with the value for
`sp_set`, and `SPDEL` with no value for `sp_delete`. -/
def sp_opversion (o : spsys) : spop → spv
  | spop.set k v =>
    { epoch := 0, crc := o.crc32c (o.crc32c 0 k) v, flags := SPSET, key := k, value := v }
  | spop.del k =>
    { epoch := 0, crc := o.crc32c (o.crc32c 0 k) [], flags := SPDEL, key := k, value := [] }

/-- A rolled back transaction: `sp_begin`, a sequence of write requests, then
`sp_rollback` with the services `orb`; the result is that of `sp_rollback`. -/
def sp_begin_writes_rollback (orb : spsys) (ws : List (spsys × spop)) (s : sp) :
    Option (Int × sp) :=
  match sp_writes ws (sp_begin s).2 with
  | none => none
  | some s1 => some (sp_rollback orb s1)

/-- An engine right after a successful `sp_open` (sp.c:304-368) on an empty
directory, for an environment without `RDONLY`, the start state of the
scenarios of the specification: the environment in use, empty error slots
and indexes, single-statement mode, no cursor, one attached live epoch with
id 1 whose log holds the log header, and the merger woken once when merging
is enabled. -/
def sp_opened (env : spenv) : sp :=
  { env := { env with inuse := true }, e := sp_einit, em := sp_einit,
    i := { l := [] }, itxn := { l := [] }, txn := SPTSS, lockc := 0,
    rep :=
      { l := [{ epoch := 1, type := SPLIVE, nupdate := 0,
                log := { data := [spseg.logh], svp := 0 } }],
        epoch := 1, n := 1, ndb := 0, nxfer := 0 },
    stop := false, wakeups := if env.merge ≠ 0 then 1 else 0, lb := [] }

/-- The environment after `sp_ctl(env, SPDIR, 0, "db")` on the initial
environment (sp.c:79-92). -/
def sp_env_db : spenv := { sp_envinit with dir := some "db" }

/-- Services that all succeed, with a batch capacity of 1024 segments; the
checksum is a stand-in for CRC-32C, which no property below depends on. -/
def sys_ok : spsys :=
  { crc32c := fun c b => (c + b.sum) % 4294967296, iovmax := 1024, vnew := true,
    iset := fun _ => true, logput := fun _ => true, logrlb := true, itruncate := true,
    lbkeep := true }

/-- One call of the write and transaction interface. -/
inductive spcall where
  | begin
  | set (k v : Bytes)
  | delete (k : Bytes)
  | commit
  | rollback
  deriving DecidableEq

/-- One interface call run on the engine, with the outcomes `o` of the
services it uses. -/
def sp_call (o : spsys) (s : sp) : spcall → Option (Int × sp)
  | spcall.begin => some (sp_begin s)
  | spcall.set k v => sp_set o s k v
  | spcall.delete k => sp_delete o s k
  | spcall.commit => sp_commit o s
  | spcall.rollback => some (sp_rollback o s)

/-- A sequence of interface calls run one after the other; the return codes
are dropped. -/
def sp_calls : List (spsys × spcall) → sp → Option sp
  | [], s => some s
  | (o, c) :: cs, s =>
    match sp_call o s c with
    | none => none
    | some r => sp_calls cs r.2

/-! ## Records in a log -/

/-- The log content starts with a record of the version `v`: a header with
the flags of `v`, then the key bytes and the value bytes of `v`. -/
def sp_recordat (v : spv) : List spseg → Bool
  | spseg.vh h :: spseg.buf k :: spseg.buf x :: _ =>
    decide (h.flags = v.flags % 256 ∧ k = v.key ∧ x = v.value)
  | _ => false

/-- The log content holds a record of the version `v` somewhere. -/
def sp_logholds (v : spv) : List spseg → Bool
  | [] => false
  | x :: xs => sp_recordat v (x :: xs) || sp_logholds v xs

/-- Write-log-then-index for one version: the repository has an epoch with
the id stamped on `v` whose log holds a record of `v`. -/
def sp_logged (r : sprep) (v : spv) : Bool :=
  r.l.any (fun e => decide (e.epoch = v.epoch) && sp_logholds v e.log.data)

/-- Write-log-then-index for the engine: every version of the memory index
has its record in the log of the epoch stamped on it. -/
def sp_logged_index (s : sp) : Bool := s.i.l.all (fun v => sp_logged s.rep v)

/-! ## Close -/

/-- One cleanup step of the close path on the epoch with the given id:
`sp_logunlink`, `sp_logeof`, `sp_logcomplete`, `sp_logclose`, `sp_mapclose`
and the release `sp_free` of the epoch. -/
inductive spstep where
  | unlink (epoch : Nat)
  | eof (epoch : Nat)
  | complete (epoch : Nat)
  | close (epoch : Nat)
  | mapclose (epoch : Nat)
  | free (epoch : Nat)
  deriving DecidableEq, Repr

/-- The variables of `sp_closerep` while it walks the repository: `rcret`,
the cleanup steps performed so far and the engine, whose error slot takes the
errors. -/
structure spclose where
  rcret : Int
  steps : List spstep
  s : sp

/-- One fallible cleanup step of `sp_closerep` with its error handling
(`rc = step(); if (rc == -1) rcret = sp_e(s, SPEIO, epoch, msg)`); `ok` is
the outcome of the step. -/
def sp_closestep (ok : spstep → Bool) (x : spstep) (msg : String) (c : spclose) : spclose :=
  if ok x then { c with steps := c.steps ++ [x] }
  else { rcret := (sp_e c.s SPEIO false msg).1, steps := c.steps ++ [x],
         s := (sp_e c.s SPEIO false msg).2 }

/-- The body of `case SPXFER` of `sp_closerep` (sp.c:221-228), which the
`SPLIVE` case with updates falls through to. -/
def sp_closerep_xfer (ok : spstep → Bool) (e : spepoch) (c : spclose) : spclose :=
  sp_closestep ok (spstep.close e.epoch) "failed to close log file"
    (sp_closestep ok (spstep.complete e.epoch) "failed to complete log file" c)

/-- The `switch (e->type)` of `sp_closerep` (sp.c:201-234) for one epoch. -/
def sp_closerep_epoch (ok : spstep → Bool) (e : spepoch) (c : spclose) : spclose :=
  match e.type with
  | SPUNDEF => c
  | SPLIVE =>
    if e.nupdate = 0 then
      sp_closestep ok (spstep.close e.epoch) "failed to close log file"
        (sp_closestep ok (spstep.unlink e.epoch) "failed to unlink log file" c)
    else
      sp_closerep_xfer ok e
        (sp_closestep ok (spstep.eof e.epoch) "failed to write eof marker" c)
  | SPXFER => sp_closerep_xfer ok e c
  | SPDB => sp_closestep ok (spstep.mapclose e.epoch) "failed to close db file" c

/-- The loop of `sp_closerep` (sp.c:199-236) over the epochs of the
repository; `j` is the position of the epoch at hand, `ok j` gives the
outcomes of its cleanup steps, and every epoch is released after its
switch. -/
def sp_closerepl (ok : Nat → spstep → Bool) : List spepoch → Nat → spclose → spclose
  | [], _, c => c
  | e :: es, j, c =>
    sp_closerepl ok es (j + 1)
      { sp_closerep_epoch (ok j) e c with
        steps := (sp_closerep_epoch (ok j) e c).steps ++ [spstep.free e.epoch] }

/-- The repository cleanup `sp_closerep` (sp.c:194-238): the return code, the
cleanup steps performed in order, and the engine afterwards, with every
epoch released. -/
def sp_closerep (ok : Nat → spstep → Bool) (s : sp) : spclose :=
  let c := sp_closerepl ok s.rep.l 0 { rcret := 0, steps := [], s := s }
  { c with s := { c.s with rep := { c.s.rep with l := [] } } }

/-- The outcomes of the services of `sp_close`: stopping the merger task
(`sp_taskstop`), the cleanup steps of the repository, and releasing the
directory lock (`sp_recoverunlock`). -/
structure spcloseo where
  taskstop : Bool
  step : Nat → spstep → Bool
  unlock : Bool

/-- The engine shutdown `sp_close` (sp.c:240-268): the return code, the
cleanup steps of the repository, and the engine afterwards, with its indexes
freed and its environment no longer in use. -/
def sp_close (o : spcloseo) (s : sp) : spclose :=
  let s1 : sp := { s with stop := true }
  let r1 : Int × sp :=
    if s1.env.merge ≠ 0 ∧ o.taskstop = false then
      sp_e s1 SPESYS false "failed to stop merger thread"
    else (0, s1)
  let c := sp_closerep o.step r1.2
  let rc2 : Int := if c.rcret = -1 then -1 else r1.1
  let rc3 : Int := if o.unlock = false then -1 else rc2
  { rcret := rc3, steps := c.steps,
    s := { c.s with i := { l := [] }, itxn := { l := [] },
                    env := { c.s.env with inuse := false } } }

/-- The cleanup steps of one epoch by its type, in the words of the
specification: an empty live log is unlinked and closed; a live log with
updates gets the EOF marker, is completed and closed; a log in transfer is
completed and closed; a db file is unmapped; an undefined epoch needs
nothing. -/
def sp_closesteps (e : spepoch) : List spstep :=
  match e.type with
  | SPLIVE =>
    if e.nupdate = 0 then [spstep.unlink e.epoch, spstep.close e.epoch]
    else [spstep.eof e.epoch, spstep.complete e.epoch, spstep.close e.epoch]
  | SPXFER => [spstep.complete e.epoch, spstep.close e.epoch]
  | SPDB => [spstep.mapclose e.epoch]
  | SPUNDEF => []

/-- The cleanup of a repository in the words of the specification: every
epoch once, in list order, its steps by type followed by its release. -/
def sp_closeplan : List spepoch → List spstep
  | [] => []
  | e :: es => sp_closesteps e ++ [spstep.free e.epoch] ++ sp_closeplan es

/-- Some cleanup step of the repository fails under the outcomes `ok`; `j`
is the position of the first epoch of the list. -/
def sp_closefails (ok : Nat → spstep → Bool) : List spepoch → Nat → Bool
  | [], _ => false
  | e :: es, j => (sp_closesteps e).any (fun x => !ok j x) || sp_closefails ok es (j + 1)

/-! ## Rotation -/

/-- The outcomes of the services of `sp_rotate`: the allocation of the epoch
(`sp_repalloc`), the creation of its log file (`sp_lognew`) and the write of
the log header (`sp_logwrite`); and `freed`: whether the read of `e->epoch`
at sp.c:176, 186, which follows `sp_free(e)` at sp.c:175, 185, has an
outcome at all (the epoch is released memory by then). -/
structure sprotateo where
  repalloc : Bool
  lognew : Bool
  logwrite : Bool
  freed : Bool

/-- Modelled from the spec: `sp_repepochincrement` (declared outside sp.c)
"increments the repository epoch counter", the "monotonic epoch counter used
to mint fresh ids"; the counter is kept unbounded. -/
def sp_repepochincrement (r : sprep) : sprep := { r with epoch := r.epoch + 1 }

/-- Modelled from the spec: the epoch that `sp_repalloc` (declared outside
sp.c) allocates for the id `epoch`: not yet in a state, without updates and
without log content. -/
def sp_repalloc (epoch : Nat) : spepoch :=
  { epoch := epoch, type := SPUNDEF, nupdate := 0, log := { data := [], svp := 0 } }

/-- Modelled from the spec: `sp_repattach` (declared outside sp.c) attaches an
epoch to the repository, at the end of its list. -/
def sp_repattach (r : sprep) (e : spepoch) : sprep := { r with l := r.l ++ [e], n := r.n + 1 }

/-- Modelled from the spec: `sp_ef` (declared outside sp.c) records an error
in the error slot it is given and returns `-1`. -/
def sp_ef (err : spe) (t : spetype) (msg : String) : Int × spe := (-1, sp_ve err t false msg)

/-- The rotation `sp_rotate` (sp.c:164-192): return code, engine and the
error slot `err` after the call.  The check of sp.c:170 tests the engine
pointer `s`, which is not null, so it never fires; when the allocation of
the epoch fails `e` is null and the call has no result (sp.c:173 stores
through it).  Both failure exits release the epoch and then read its id for
the error (sp.c:175-176, 185-186): they return `-1` when that read has an
outcome and have no result otherwise.  On success the new epoch is attached
with the log header written, and marked `LIVE` (`sp_repattach`,
`sp_repset`). -/
def sp_rotate (o : sprotateo) (s : sp) (err : spe) : Option (Int × sp × spe) :=
  let rep1 := sp_repepochincrement s.rep
  if o.repalloc = false then none
  else if o.lognew = false then
    if o.freed = false then none
    else some (-1, { s with rep := rep1 }, (sp_ef err SPEIO "failed to create log file").2)
  else if o.logwrite = false then
    if o.freed = false then none
    else some (-1, { s with rep := rep1 }, (sp_ef err SPEIO "failed to write log file").2)
  else
    let e : spepoch :=
      { sp_repalloc rep1.epoch with log := { data := [spseg.logh], svp := 0 }, type := SPLIVE }
    some (0, { s with rep := sp_repattach rep1 e }, err)

/-- A sequence of rotations of one engine, each with its own outcomes and
with the engine error slot as `err`, as `sp_open` calls `sp_rotate`
(sp.c:350). -/
def sp_rotates : List sprotateo → sp → Option sp
  | [], s => some s
  | o :: os, s =>
    match sp_rotate o s s.e with
    | none => none
    | some r => sp_rotates os { r.2.1 with e := r.2.2 }

/-- The epochs of a list that are `LIVE`. -/
def sp_lives (l : List spepoch) : List spepoch := l.filter (fun e => decide (e.type = SPLIVE))

/-! ## Open -/

/-- Modelled from the spec: `sp_edup(dst, src)` (declared outside sp.c) copies
the error of `src` into `dst`, by which a failed open leaves the
environment error slot "with the first error message" of the engine. -/
def sp_edup (_dst src : spe) : spe := src

/-- Modelled from the spec: `sp_repinit` (declared outside sp.c) gives an
empty repository. -/
def sp_repinit : sprep := { l := [], epoch := 0, n := 0, ndb := 0, nxfer := 0 }

/-- What `sp_open` gets from outside sp.c: the outcomes of the allocation of
the handle (`sp_malloc`), of the three `sp_iinit` calls (numbered in call
order), of `sp_catinit`, `sp_refsetinit` and `sp_taskstart`, the services of
the rotation, the cleanup steps and the unlock of the failure path, and
recovery: `sp_recover` is an external collaborator, taken as a function
from the engine before recovery to its return code and the engine after it. -/
structure spopeno where
  malloc : Bool
  iinit : Nat → Bool
  catinit : Bool
  recover : sp → Int × sp
  rotate : sprotateo
  refsetinit : Bool
  taskstart : Bool
  step : Nat → spstep → Bool
  unlock : Bool

/-- The exit `e0` of `sp_open` (sp.c:380-389): the environment is no longer
in use and takes the error of the engine; the handle is freed and null is
returned. -/
def sp_open_e0 (env : spenv) (s : sp) : Option sp × spenv :=
  (none, { env with inuse := false, e := sp_edup env.e s.e })

/-- The exit `e3` of `sp_open` (sp.c:371-389): the repository is cleaned up
by `sp_closerep`, whose errors go to the engine error slot, then the exits
`e2`, `e1` and `e0` follow. -/
def sp_open_e3 (o : spopeno) (env : spenv) (s : sp) : Option sp × spenv :=
  sp_open_e0 env (sp_closerep o.step s).s

/-- The engine of `sp_open` after `memset` and the initialisations of
sp.c:304-344, before recovery: bound to the environment, which is in use, with
empty error slots, indexes and repository, in single-statement mode. -/
def sp_open_init (env : spenv) : sp :=
  { env := { env with inuse := true }, e := sp_einit, em := sp_einit,
    i := { l := [] }, itxn := { l := [] }, txn := SPTSS, lockc := 0,
    rep := sp_repinit, stop := false, wakeups := 0, lb := [] }

/-- The tail of `sp_open` after recovery and rotation (sp.c:354-368): the
key buffer is allocated and, when merging is enabled, the merger task is
started and woken once. -/
def sp_open_finish (o : spopeno) (env : spenv) (s : sp) : Option sp × spenv :=
  let s1 : sp := { s with stop := false }
  if o.refsetinit = false then
    sp_open_e3 o env (sp_e s1 SPEOOM false "failed to allocate key buffer").2
  else if s1.env.merge ≠ 0 then
    if o.taskstart = false then
      sp_open_e3 o env (sp_e s1 SPESYS false "failed to start merger thread").2
    else (some (sp_taskwakeup s1), { env with inuse := true })
  else (some s1, { env with inuse := true })

/-- The open `sp_open` (sp.c:290-390): the handle returned, null on failure,
and the environment after the call.  No result when the rotation has none. -/
def sp_open (o : spopeno) (env : spenv) : Option (Option sp × spenv) :=
  if (sp_envvalidate env).1 = -1 then some (none, (sp_envvalidate env).2)
  else if o.malloc = false then
    some (none, (sp_ee env SPEOOM "failed to allocate db handle").2)
  else
    let s0 := sp_open_init env
    if o.iinit 0 = false then
      some (sp_open_e0 env (sp_e s0 SPEOOM false "failed to allocate key index").2)
    else if o.iinit 1 = false then
      some (sp_open_e0 env (sp_e s0 SPEOOM false "failed to allocate key index").2)
    else if o.iinit 2 = false then
      some (sp_open_e0 env (sp_e s0 SPEOOM false "failed to allocate transaction index").2)
    else if o.catinit = false then
      some (sp_open_e0 env (sp_e s0 SPEOOM false "failed to allocate page index").2)
    else if (o.recover s0).1 = -1 then some (sp_open_e3 o env (o.recover s0).2)
    else if sp_rdonly (o.recover s0).2.env then
      some (sp_open_finish o env (o.recover s0).2)
    else
      match sp_rotate o.rotate (o.recover s0).2 (o.recover s0).2.e with
      | none => none
      | some r =>
        if r.1 = -1 then some (sp_open_e3 o env { r.2.1 with e := r.2.2 })
        else some (sp_open_finish o env { r.2.1 with e := r.2.2 })

/-! ## Configuration -/

/-- An option of `sp_ctl` together with the arguments that `sp_ctlenv` reads
for it from the argument list; `SPMERGEFORCE` and `SPVERSION` are the options
that `sp_ctlenv` has no case for. -/
inductive spopt where
  | SPDIR (flags : Nat) (path : String)
  | SPALLOC (alloc allocarg : Nat)
  | SPCMP (cmp : Bytes → Bytes → Int) (cmparg : Nat)
  | SPPAGE (page : Nat)
  | SPGC (gc : Int)
  | SPGCF (gcfactor : Rat)
  | SPGROW (dbnewsize : Nat) (dbgrow : Rat)
  | SPMERGE (merge : Int)
  | SPMERGEWM (mergewm : Nat)
  | SPMERGEFORCE
  | SPVERSION

/-- The configuration `sp_ctlenv` (sp.c:74-124); `strdup` is the outcome of
the copy of the directory path. -/
def sp_ctlenv (strdup : Bool) (e : spenv) (opt : spopt) : Int × spenv :=
  if e.inuse then sp_ee e SPEOOM "can't change env opts while in-use"
  else
    match opt with
    | spopt.SPDIR flags path =>
      if strdup = false then sp_ee e SPEOOM "failed to allocate memory"
      else (0, { e with dir := some path, flags := flags })
    | spopt.SPALLOC alloc allocarg => (0, { e with alloc := alloc, allocarg := allocarg })
    | spopt.SPCMP cmp cmparg => (0, { e with cmp := cmp, cmparg := cmparg })
    | spopt.SPPAGE page => (0, { e with page := page })
    | spopt.SPGC gc => (0, { e with gc := gc })
    | spopt.SPGCF gcfactor => (0, { e with gcfactor := gcfactor })
    | spopt.SPGROW dbnewsize dbgrow => (0, { e with dbnewsize := dbnewsize, dbgrow := dbgrow })
    | spopt.SPMERGE merge => (0, { e with merge := merge })
    | spopt.SPMERGEWM mergewm => (0, { e with mergewm := mergewm })
    | _ => sp_ee e SPE "bad arguments"

/-- The environment after `sp_ctl(env, SPDIR, SPO_RDONLY, "db")` on the initial
environment. -/
def sp_env_ro : spenv := { sp_envinit with dir := some "db", flags := SPO_RDONLY }

/-- An engine right after a successful `sp_open` of the read-only environment
`sp_env_ro` when recovery finds an empty directory: as `sp_opened`, but
without any epoch, since there is no rotation. -/
def sp_opened_ro : sp := { sp_opened sp_env_ro with rep := sp_repinit }

/-! ## The merger -/

/-- The decision of one iteration of `merger` (sp.c:275-279), taken at each
wake-up: merge when the count of the memory index exceeds the watermark. -/
def merger_merge (s : sp) : Bool := decide (s.i.count > s.env.mergewm)

/-- A sequence of `sp_set` calls with the merger running to its wait point
after every call that woke it: the decisions the merger took, in order, and
the engine at the end.  The run stops at the first decision to merge, since
`sp_merge` is outside sp.c. -/
def sp_sets_merger : List (spsys × Bytes × Bytes) → sp → Option (List Bool × sp)
  | [], s => some ([], s)
  | (o, k, v) :: ws, s =>
    match sp_set o s k v with
    | none => none
    | some r =>
      if r.2.wakeups > s.wakeups then
        if merger_merge r.2 then some ([true], r.2)
        else
          match sp_sets_merger ws r.2 with
          | none => none
          | some q => some (false :: q.1, q.2)
      else sp_sets_merger ws r.2

/-! ## Record checksums -/

/-- One pass of the loop of `sp_commit` through the assertion of sp.c:511,
right before the header is composed at `hbuf + hpos`: the header position,
the offsets into `hbuf` of the headers that the batch references at that
moment (`hp` of sp.c:512, handed to `sp_batchadd` at sp.c:519), and the
number of segments in the batch.  `hbuf` is an automatic array of the call
(sp.c:492): the segments that an earlier call left in the batch point to the
header buffer of that call, whose lifetime has ended, and not into this
one, so they count in `nlb` and not in `refs`. -/
structure sphwrite where
  hpos : Nat
  refs : List Nat
  nlb : Nat
  deriving DecidableEq, Repr

/-- The offsets into `hbuf` referenced by the batch after the flush at the
head of the loop body (sp.c:501-508): none once the batch was written. -/
def sp_commit_flushrefs (o : spsys) (c : spcommit) (refs : List Nat) : List Nat :=
  if sp_batchensure o.iovmax c.lb 3 = false then [] else refs

/-- The passes of the loop of `sp_commit` (sp.c:498-533) through the
assertion on `hpos`, in order; `refs` holds the offsets into `hbuf` of the
headers the batch references, none when `sp_commit` is entered.  The control
flow is that of `sp_commit_loop`: a failed log write leaves the loop before
the assertion, a failed assertion or a failed insert leaves it after. -/
def sp_commit_hwrites (o : spsys) (cmp : Bytes → Bytes → Int) (epoch : Nat) :
    List spv → Nat → spcommit → List Nat → List sphwrite
  | [], _, _, _ => []
  | v :: vs, j, c, refs =>
    if sp_batchensure o.iovmax c.lb 3 = false ∧ (sp_logput (o.logput j) c.log c.lb).1 = -1 then []
    else
      { hpos := (sp_commit_flush o j c).hpos, refs := sp_commit_flushrefs o c refs,
        nlb := (sp_commit_flush o j c).lb.length } ::
        (if ¬ ((sp_commit_flush o j c).hpos < sizeof_spvh * 512) then []
         else if o.iset j = false then []
         else
          sp_commit_hwrites o cmp epoch vs (j + 1)
            { sp_commit_add o (sp_commit_flush o j c) { v with epoch := epoch } with
              i := (sp_iset cmp (sp_commit_flush o j c).i { v with epoch := epoch }).1,
              ins := (sp_commit_flush o j c).ins + 1 }
            (sp_commit_flushrefs o c refs ++ [(sp_commit_flush o j c).hpos]))

/-! ## Reference notions of the specification -/

/-- The sign of the byte-wise comparison of two byte strings, in the words of
the specification: `-1`, `0` or `1` as the first string is below, equal to or
above the second in the lexicographic order of their bytes. -/
def bytewise_sign (x y : Bytes) : Int :=
  if x < y then -1 else if y < x then 1 else 0

/-! ## Properties of the default comparator -/

theorem bytes_cons_lt_cons (a b : Nat) (as bs : Bytes) :
    (a :: as : Bytes) < b :: bs ↔ a < b ∨ (a = b ∧ as < bs) := by
  constructor
  · intro h
    cases h with
    | rel h => exact Or.inl h
    | cons h => exact Or.inr ⟨rfl, h⟩
  · rintro (h | ⟨rfl, h⟩)
    · exact List.Lex.rel h
    · exact List.Lex.cons h

theorem bytes_lt_irrefl (x : Bytes) : ¬ x < x := by
  induction x with
  | nil => intro h; cases h
  | cons a as ih =>
    intro h
    rcases (bytes_cons_lt_cons a a as as).1 h with h | ⟨_, h⟩
    · exact Nat.lt_irrefl _ h
    · exact ih h

theorem memcmp_spec (a b : Bytes) (n : Nat) (ha : n ≤ a.length) (hb : n ≤ b.length) :
    (memcmp a b n < 0 ↔ a.take n < b.take n) ∧ (0 < memcmp a b n ↔ b.take n < a.take n) := by
  induction n generalizing a b with
  | zero =>
    cases a <;> cases b <;> simp [memcmp, bytes_lt_irrefl]
  | succ n ih =>
    cases a with
    | nil => simp at ha
    | cons x xs =>
      cases b with
      | nil => simp at hb
      | cons y ys =>
        simp only [List.length_cons, Nat.add_le_add_iff_right] at ha hb
        simp only [memcmp, List.take_succ_cons, bytes_cons_lt_cons]
        by_cases hxy : x = y
        · subst hxy
          simp only [if_true, Nat.lt_irrefl, true_and, false_or]
          exact ih xs ys ha hb
        · simp only [hxy, if_false, false_and, or_false]
          have hyx : ¬ y = x := fun h => hxy h.symm
          simp only [hyx, false_and, or_false]
          constructor <;> omega

theorem cmpstd_eq_memcmp_min (a b : Bytes) :
    cmpstd a b =
      if memcmp a b (min a.length b.length) = 0 then 0
      else if memcmp a b (min a.length b.length) > 0 then 1 else -1 := by
  have hmin : (if a.length < b.length then a.length else b.length) = min a.length b.length := by
    by_cases h : a.length < b.length
    · simp [h, Nat.min_eq_left (Nat.le_of_lt h)]
    · simp [h, Nat.min_eq_right (Nat.le_of_not_lt h)]
  unfold cmpstd
  simp only [hmin]
  split <;> simp_all

/-- C3: for all byte strings `a` and `b`, empty ones included, `cmpstd`
returns exactly one of `-1`, `0`, `+1`, and that value is the sign of the
byte-wise comparison of the first `min(|a|,|b|)` bytes of `a` and `b`. -/
theorem C3_cmpstd_sign_of_common_bytes (a b : Bytes) :
    (cmpstd a b = -1 ∨ cmpstd a b = 0 ∨ cmpstd a b = 1) ∧
    cmpstd a b =
      bytewise_sign (a.take (min a.length b.length)) (b.take (min a.length b.length)) := by
  have hs := memcmp_spec a b (min a.length b.length) (Nat.min_le_left _ _) (Nat.min_le_right _ _)
  rw [cmpstd_eq_memcmp_min]
  unfold bytewise_sign
  rcases lt_trichotomy (memcmp a b (min a.length b.length)) 0 with h | h | h
  · have h1 := hs.1.1 h
    have h2 : ¬ (0 < memcmp a b (min a.length b.length)) := by omega
    have h3 : ¬ (memcmp a b (min a.length b.length) = 0) := by omega
    simp [h1, h2, h3]
  · have h1 : ¬ (List.take (min a.length b.length) a < List.take (min a.length b.length) b) :=
      fun hc => by have := hs.1.2 hc; omega
    have h2 : ¬ (List.take (min a.length b.length) b < List.take (min a.length b.length) a) :=
      fun hc => by have := hs.2.2 hc; omega
    simp [h, h1, h2]
  · have h1 := hs.2.1 h
    have h2 : ¬ (List.take (min a.length b.length) a < List.take (min a.length b.length) b) :=
      fun hc => by have := hs.1.2 hc; omega
    have h3 : ¬ (memcmp a b (min a.length b.length) = 0) := by omega
    simp [h1, h2, h3, h]

/-- C2: `cmpstd` is not the total order on byte strings the claim describes:
it returns `0` for the key "a" and the longer key "ab", of which "a" is a
proper prefix, and it is not transitive on "b", "" and "a". -/
theorem C2_cmpstd_prefix_keys_compare_equal :
    (cmpstd [97] [97, 98] = 0 ∧ ([97] : Bytes) ≠ [97, 98]) ∧
    (cmpstd [98] [] ≤ 0 ∧ cmpstd [] [97] ≤ 0 ∧ ¬ cmpstd [98] [97] ≤ 0) := by
  decide

/-! ## Properties of the environment validation -/

/-- C1 as stated fails: an environment that is not in use, has no directory
and already holds the error "bad arguments" is rejected with `-1`, but the
message in its error slot is not "directory is not specified": the slot is
left as it was. -/
theorem C1_counterexample_earlier_error_retained :
    ({ sp_envinit with e := { type := SPE, fatal := false, e := "bad arguments" } } : spenv).inuse
        = false ∧
    ({ sp_envinit with e := { type := SPE, fatal := false, e := "bad arguments" } } : spenv).dir
        = none ∧
    (sp_envvalidate
        { sp_envinit with e := { type := SPE, fatal := false, e := "bad arguments" } }).1 = -1 ∧
    (sp_envvalidate
        { sp_envinit with e := { type := SPE, fatal := false, e := "bad arguments" } }).2.e.e
        ≠ "directory is not specified" ∧
    (sp_envvalidate
        { sp_envinit with e := { type := SPE, fatal := false, e := "bad arguments" } }).2.e
        = { type := SPE, fatal := false, e := "bad arguments" } := by
  decide

/-- C1, amended: for every environment that is not in use, `sp_envvalidate`
returns `0` if and only if `dir` is set, `mergewm >= 2`, `page >= 2` and
`page` is even, and then leaves the environment as it is; in every other
case it returns `-1`, changes nothing but the error slot, and the error slot
holds an error afterwards: the earlier error when there was one, and
otherwise the error this call records, whose message is "directory is not
specified" when `dir` is unset, whatever the other options are. -/
theorem C1_envvalidate (e : spenv) (h : e.inuse = false) :
    ((sp_envvalidate e).1 = 0 ↔
      (e.dir ≠ none ∧ 2 ≤ e.mergewm ∧ 2 ≤ e.page ∧ e.page % 2 = 0)) ∧
    ((sp_envvalidate e).1 = 0 → (sp_envvalidate e).2 = e) ∧
    ((sp_envvalidate e).1 ≠ 0 →
      (sp_envvalidate e).1 = -1 ∧ sp_eis (sp_envvalidate e).2.e = true ∧
      (sp_envvalidate e).2 = { e with e := (sp_envvalidate e).2.e }) ∧
    (sp_eis e.e = true → (sp_envvalidate e).2.e = e.e) ∧
    (sp_eis e.e = false → e.dir = none →
      (sp_envvalidate e).2.e = { type := SPE, fatal := false, e := "directory is not specified" }) := by
  have hrec : ∀ msg : String, sp_eis (sp_ve e.e SPE false msg) = true := by
    intro msg
    by_cases he : sp_eis e.e = true
    · rw [sp_ve, if_pos he]; exact he
    · rw [sp_ve, if_neg he]; rfl
  have hkeep : ∀ msg : String, sp_eis e.e = true → sp_ve e.e SPE false msg = e.e := by
    intro msg he
    rw [sp_ve, if_pos he]
  have hnew : ∀ msg : String, sp_eis e.e = false →
      sp_ve e.e SPE false msg = { type := SPE, fatal := false, e := msg } := by
    intro msg he
    rw [sp_ve, if_neg (by simp [he])]
  have hfail : ∀ msg : String, sp_envvalidate e = sp_ee e SPE msg →
      ¬ (e.dir ≠ none ∧ 2 ≤ e.mergewm ∧ 2 ≤ e.page ∧ e.page % 2 = 0) →
      (e.dir = none → msg = "directory is not specified") →
      (((sp_envvalidate e).1 = 0 ↔
        (e.dir ≠ none ∧ 2 ≤ e.mergewm ∧ 2 ≤ e.page ∧ e.page % 2 = 0)) ∧
      ((sp_envvalidate e).1 = 0 → (sp_envvalidate e).2 = e) ∧
      ((sp_envvalidate e).1 ≠ 0 →
        (sp_envvalidate e).1 = -1 ∧ sp_eis (sp_envvalidate e).2.e = true ∧
        (sp_envvalidate e).2 = { e with e := (sp_envvalidate e).2.e }) ∧
      (sp_eis e.e = true → (sp_envvalidate e).2.e = e.e) ∧
      (sp_eis e.e = false → e.dir = none →
        (sp_envvalidate e).2.e =
          { type := SPE, fatal := false, e := "directory is not specified" })) := by
    intro msg hv hn hmsg
    rw [hv]
    have h1 : (sp_ee e SPE msg).1 = -1 := rfl
    have h2 : (sp_ee e SPE msg).2 = { e with e := sp_ve e.e SPE false msg } := rfl
    rw [h1, h2]
    refine ⟨⟨fun hc => absurd hc (by decide), fun hc => absurd hc hn⟩,
      fun hc => absurd hc (by decide), fun _ => ⟨rfl, hrec msg, rfl⟩, hkeep msg, ?_⟩
    intro he hd
    rw [hmsg hd]
    exact hnew _ he
  by_cases hd : e.dir = none
  · exact hfail "directory is not specified" (by simp [sp_envvalidate, h, hd])
      (fun hc => hc.1 hd) (fun _ => rfl)
  · by_cases hm : e.mergewm < 2
    · exact hfail "bad merge watermark count" (by simp [sp_envvalidate, h, hd, hm])
        (fun hc => by omega) (fun hc => absurd hc hd)
    · by_cases hp : e.page < 2
      · exact hfail "bad page size" (by simp [sp_envvalidate, h, hd, hm, hp])
          (fun hc => by omega) (fun hc => absurd hc hd)
      · by_cases hq : e.page % 2 > 0
        · exact hfail "bad page size must be even" (by simp [sp_envvalidate, h, hd, hm, hp, hq])
            (fun hc => by omega) (fun hc => absurd hc hd)
        · have hv : sp_envvalidate e = (0, e) := by
            simp [sp_envvalidate, h, hd, hm, hp, hq]
          rw [hv]
          refine ⟨⟨fun _ => ⟨hd, by omega, by omega, by omega⟩, fun _ => rfl⟩, fun _ => rfl,
            fun hc => absurd rfl hc, fun _ => rfl, fun _ hc => absurd hc hd⟩

/-- Witness for `C1_envvalidate`: the initial environment is not in use. -/
theorem C1_envvalidate_witness :
    sp_envinit.inuse = false ∧
    (sp_envvalidate sp_envinit).2.e =
      { type := SPE, fatal := false, e := "directory is not specified" } :=
  ⟨rfl, (C1_envvalidate sp_envinit rfl).2.2.2.2 (by decide) rfl⟩

/-! ## Frame lemmas of the write paths -/

theorem sp_e_fst (s : sp) (t : spetype) (f : Bool) (msg : String) : (sp_e s t f msg).1 = -1 := rfl

theorem sp_e_snd (s : sp) (t : spetype) (f : Bool) (msg : String) :
    (sp_e s t f msg).2 = { s with e := sp_ve s.e t f msg } := rfl

theorem sp_ve_of_empty (e : spe) (t : spetype) (f : Bool) (msg : String)
    (he : sp_eis e = false) : sp_ve e t f msg = { type := t, fatal := f, e := msg } := by
  rw [sp_ve, if_neg (by simp [he])]

theorem sp_ve_of_error (e : spe) (t : spetype) (f : Bool) (msg : String)
    (he : sp_eis e = true) : sp_ve e t f msg = e := by
  rw [sp_ve, if_pos he]

theorem sp_do_rlb_frame (o : spsys) (s : sp) (live : spepoch) (log : spfile) :
    (sp_do_rlb o s live log).2.txn = s.txn ∧ (sp_do_rlb o s live log).2.i = s.i ∧
    (sp_do_rlb o s live log).2.itxn = s.itxn ∧ (sp_do_rlb o s live log).2.env = s.env ∧
    (sp_do_rlb o s live log).2.lockc = s.lockc := by
  unfold sp_do_rlb
  by_cases h : (sp_logrlb o.logrlb log).1 = -1 <;> simp [h]

theorem sp_do_txn (o : spsys) (s : sp) (op : Nat) (k v : Bytes) (r : Int × sp)
    (h : sp_do o s op k v = some r) : r.2.txn = s.txn := by
  unfold sp_do at h
  cases hn : sp_vnewv o k v with
  | none =>
    simp only [hn] at h
    cases h; rfl
  | some n0 =>
    simp only [hn] at h
    by_cases hm : s.txn = SPTMS
    · simp only [hm, if_true] at h
      by_cases hi : o.iset 0 = false
      · simp only [hi, if_true] at h
        cases h; rfl
      · simp only [hi, if_false] at h
        cases h; exact hm.symm
    · simp only [hm, if_false] at h
      cases hl : sp_replive s.rep with
      | none => simp [hl] at h
      | some live =>
        simp only [hl] at h
        split at h
        · cases h
          exact (sp_do_rlb_frame o _ live _).1
        · split at h
          · split at h
            · cases h
              exact (sp_do_rlb_frame o _ live _).1
            · cases h
              exact (sp_do_rlb_frame o _ live _).1
          · split at h
            · cases h
            · cases h
              dsimp only
              split <;> rfl

theorem sp_set_txn (o : spsys) (s : sp) (k v : Bytes) (r : Int × sp)
    (h : sp_set o s k v = some r) : r.2.txn = s.txn := by
  unfold sp_set at h
  split at h
  · cases h; rfl
  · split at h
    · cases h; rfl
    · split at h
      · cases h; rfl
      · split at h
        · cases h; rfl
        · split at h
          · cases h; rfl
          · exact sp_do_txn o s SPSET k v r h

theorem sp_delete_txn (o : spsys) (s : sp) (k : Bytes) (r : Int × sp)
    (h : sp_delete o s k = some r) : r.2.txn = s.txn := by
  unfold sp_delete at h
  split at h
  · cases h; rfl
  · split at h
    · cases h; rfl
    · split at h
      · cases h; rfl
      · split at h
        · cases h; rfl
        · exact sp_do_txn o s SPDEL k [] r h

theorem sp_get_frame (s : sp) (k : Bytes) :
    (sp_get s k).2.2.txn = s.txn ∧ (sp_get s k).2.2.i = s.i ∧ (sp_get s k).2.2.itxn = s.itxn := by
  unfold sp_get
  split
  · exact ⟨rfl, rfl, rfl⟩
  · split
    · exact ⟨rfl, rfl, rfl⟩
    · exact ⟨rfl, rfl, rfl⟩

theorem sp_commit_abort_fst (o : spsys) (s : sp) (live : spepoch) (c : spcommit)
    (staged : List spv) (t : spetype) (msg : String) (r : Int × sp)
    (h : sp_commit_abort o s live c staged t msg = some r) : r.1 = -1 := by
  unfold sp_commit_abort at h
  simp only [] at h
  split at h
  · cases h
  · cases h
    rfl

theorem sp_commit_zero_txn (o : spsys) (s : sp) (s' : sp)
    (h : sp_commit o s = some (0, s')) : s'.txn = SPTSS := by
  unfold sp_commit at h
  split at h
  · cases h
  · split at h
    · cases h
    · split at h
      · cases h
      · split at h
        · cases h; rfl
        · split at h
          · cases h
          · split at h
            · cases h
            · exact absurd (show (0 : Int) = -1 from sp_commit_abort_fst _ _ _ _ _ _ _ _ h) (by decide)
            · split at h
              · exact absurd (show (0 : Int) = -1 from sp_commit_abort_fst _ _ _ _ _ _ _ _ h) (by decide)
              · cases h
                dsimp only
                split <;> rfl

/-! ## The transaction state machine -/

/-- C4 as stated fails: a non-fatal engine in single-statement mode without
cursors that already holds the error "key size limit reached" rejects
`sp_commit` and `sp_rollback` with `-1`, but its error message is still
"key size limit reached", not one starting "no active transaction". -/
theorem C4_counterexample_earlier_error_retained :
    ({ sp_opened sp_env_db with
        e := { type := SPE, fatal := false, e := "key size limit reached" } } : sp).e.fatal
      = false ∧
    (sp_commit sys_ok { sp_opened sp_env_db with
        e := { type := SPE, fatal := false, e := "key size limit reached" } }).map
      (fun r => (r.1, r.2.txn, sp_error r.2)) = some (-1, SPTSS, some "key size limit reached") ∧
    (fun r : Int × sp => (r.1, r.2.txn, sp_error r.2))
      (sp_rollback sys_ok { sp_opened sp_env_db with
        e := { type := SPE, fatal := false, e := "key size limit reached" } })
      = (-1, SPTSS, some "key size limit reached") := by
  decide

/-- C4, amended: for every engine that is not fatal and has `lockc = 0`,
`sp_begin` succeeds exactly when `txn = SS` and then changes only `txn`, to
`MS`; `sp_begin` in `MS` returns `-1` and changes nothing; `sp_commit` and
`sp_rollback` in `SS` return `-1` and change nothing but the error slot, to
which they report "no active transaction to commit" and "no active
transaction to rollback": that message is in the slot afterwards when the
slot was empty, and the earlier error is retained otherwise; `sp_commit` and
`sp_rollback` that return `0` end with `txn = SS`.  In every engine state
`sp_set`, `sp_delete` and `sp_get` leave `txn` as it is. -/
theorem C4_transaction_modes (o : spsys) (s : sp) (hf : s.e.fatal = false)
    (hl : s.lockc = 0) :
    ((sp_begin s).1 = 0 ↔ s.txn = SPTSS) ∧
    (s.txn = SPTSS → sp_begin s = (0, { s with txn := SPTMS })) ∧
    (s.txn = SPTMS → sp_begin s = (-1, s)) ∧
    (s.txn = SPTSS →
      sp_commit o s =
        some (-1, { s with e := sp_ve s.e SPE false "no active transaction to commit" }) ∧
      sp_rollback o s =
        (-1, { s with e := sp_ve s.e SPE false "no active transaction to rollback" })) ∧
    (∀ msg : String, sp_eis s.e = false →
      sp_ve s.e SPE false msg = { type := SPE, fatal := false, e := msg }) ∧
    (∀ msg : String, sp_eis s.e = true → sp_ve s.e SPE false msg = s.e) ∧
    (∀ s' : sp, sp_commit o s = some (0, s') → s'.txn = SPTSS) ∧
    (∀ s' : sp, sp_rollback o s = (0, s') → s'.txn = SPTSS) ∧
    (∀ (t : sp) (k v : Bytes) (r : Int × sp), sp_set o t k v = some r → r.2.txn = t.txn) ∧
    (∀ (t : sp) (k : Bytes) (r : Int × sp), sp_delete o t k = some r → r.2.txn = t.txn) ∧
    (∀ (t : sp) (k : Bytes), (sp_get t k).2.2.txn = t.txn) := by
  have hv : sp_evalidate s = false := hf
  refine ⟨?_, ?_, ?_, ?_, fun msg he => sp_ve_of_empty _ _ _ _ he,
    fun msg he => sp_ve_of_error _ _ _ _ he, fun s' h => sp_commit_zero_txn o s s' h, ?_,
    fun t k v r h => sp_set_txn o t k v r h, fun t k r h => sp_delete_txn o t k r h,
    fun t k => (sp_get_frame t k).1⟩
  · cases ht : s.txn <;> simp [sp_begin, hv, hl, ht]
  · intro ht
    simp [sp_begin, hv, hl, ht]
  · intro ht
    simp [sp_begin, hv, ht]
  · intro ht
    constructor
    · simp [sp_commit, hv, ht, sp_e]
    · simp [sp_rollback, hv, ht, sp_e]
  · intro s' h
    unfold sp_rollback at h
    rw [hv] at h
    simp only [Bool.false_eq_true, if_false] at h
    split at h
    · cases h
    · split at h
      · cases h
      · split at h
        · cases h
        · cases h; rfl

/-- Witness for `C4_transaction_modes`: a freshly opened engine is not fatal,
has no cursor and is in single-statement mode; `sp_begin` moves it to
multi-statement mode. -/
theorem C4_transaction_modes_witness :
    (sp_opened sp_env_db).e.fatal = false ∧ (sp_opened sp_env_db).lockc = 0 ∧
    (sp_opened sp_env_db).txn = SPTSS ∧
    sp_begin (sp_opened sp_env_db) = (0, { sp_opened sp_env_db with txn := SPTMS }) :=
  ⟨rfl, rfl, rfl, (C4_transaction_modes sys_ok (sp_opened sp_env_db) rfl rfl).2.1 rfl⟩

/-! ## Cursor exclusion -/

/-- C5: for every engine state with `lockc > 0`, whatever the transaction
mode, the read-only flag or the fatal flag, and for every argument, each of
`sp_set`, `sp_delete`, `sp_begin`, `sp_commit` and `sp_rollback` returns `-1`
and leaves the memory index `i`, the staging index `itxn`, the transaction
mode and the repository, hence the live epoch with its `nupdate` and its
log, unchanged. -/
theorem C5_cursor_exclusion (o : spsys) (s : sp) (hl : 0 < s.lockc) :
    (∀ k v : Bytes, ∃ s' : sp, sp_set o s k v = some (-1, s') ∧
      s'.i = s.i ∧ s'.itxn = s.itxn ∧ s'.txn = s.txn ∧ s'.rep = s.rep) ∧
    (∀ k : Bytes, ∃ s' : sp, sp_delete o s k = some (-1, s') ∧
      s'.i = s.i ∧ s'.itxn = s.itxn ∧ s'.txn = s.txn ∧ s'.rep = s.rep) ∧
    (∃ s' : sp, sp_begin s = (-1, s') ∧
      s'.i = s.i ∧ s'.itxn = s.itxn ∧ s'.txn = s.txn ∧ s'.rep = s.rep) ∧
    (∃ s' : sp, sp_commit o s = some (-1, s') ∧
      s'.i = s.i ∧ s'.itxn = s.itxn ∧ s'.txn = s.txn ∧ s'.rep = s.rep) ∧
    (∃ s' : sp, sp_rollback o s = (-1, s') ∧
      s'.i = s.i ∧ s'.itxn = s.itxn ∧ s'.txn = s.txn ∧ s'.rep = s.rep) := by
  have hc : s.lockc ≠ 0 := Nat.pos_iff_ne_zero.mp hl
  refine ⟨?_, ?_, ?_, ?_, ?_⟩
  · intro k v
    unfold sp_set
    split
    · exact ⟨s, rfl, rfl, rfl, rfl, rfl⟩
    · split
      · exact ⟨_, rfl, rfl, rfl, rfl, rfl⟩
      · split
        · exact ⟨_, rfl, rfl, rfl, rfl, rfl⟩
        · split
          · exact ⟨_, rfl, rfl, rfl, rfl, rfl⟩
          · exact ⟨_, rfl, rfl, rfl, rfl, rfl⟩
  · intro k
    unfold sp_delete
    split
    · exact ⟨s, rfl, rfl, rfl, rfl, rfl⟩
    · split
      · exact ⟨_, rfl, rfl, rfl, rfl, rfl⟩
      · split
        · exact ⟨_, rfl, rfl, rfl, rfl, rfl⟩
        · exact ⟨_, rfl, rfl, rfl, rfl, rfl⟩
  · unfold sp_begin
    split
    · exact ⟨s, rfl, rfl, rfl, rfl, rfl⟩
    · split
      · exact ⟨s, rfl, rfl, rfl, rfl, rfl⟩
      · exact ⟨_, rfl, rfl, rfl, rfl, rfl⟩
  · unfold sp_commit
    split
    · exact ⟨s, rfl, rfl, rfl, rfl, rfl⟩
    · split
      · exact ⟨_, rfl, rfl, rfl, rfl, rfl⟩
      · exact ⟨_, rfl, rfl, rfl, rfl, rfl⟩
  · unfold sp_rollback
    split
    · exact ⟨s, rfl, rfl, rfl, rfl, rfl⟩
    · split
      · exact ⟨_, rfl, rfl, rfl, rfl, rfl⟩
      · exact ⟨_, rfl, rfl, rfl, rfl, rfl⟩

/-- Witness for `C5_cursor_exclusion`: a freshly opened engine with one open
cursor rejects a write. -/
theorem C5_cursor_exclusion_witness :
    0 < ({ sp_opened sp_env_db with lockc := 1 } : sp).lockc ∧
    ∃ s' : sp, sp_set sys_ok { sp_opened sp_env_db with lockc := 1 } [97] [98] = some (-1, s') ∧
      s'.i = (sp_opened sp_env_db).i ∧ s'.itxn = (sp_opened sp_env_db).itxn ∧
      s'.txn = (sp_opened sp_env_db).txn ∧ s'.rep = (sp_opened sp_env_db).rep :=
  ⟨by decide,
    (C5_cursor_exclusion sys_ok { sp_opened sp_env_db with lockc := 1 } (by decide)).1 [97] [98]⟩

/-! ## Size guards -/

theorem sp_repputl_live (e live : spepoch) (l : List spepoch) (he : e.type = SPLIVE)
    (h : l.find? (fun x => x.type = SPLIVE) = some live) :
    (sp_repputl e l).find? (fun x => x.type = SPLIVE) = some e := by
  induction l with
  | nil => simp at h
  | cons x xs ih =>
    by_cases hx : x.type = SPLIVE
    · simp [sp_repputl, hx, List.find?, he]
    · simp only [List.find?, hx, decide_False] at h
      simp [sp_repputl, hx, List.find?, ih h]

theorem sp_replive_type (r : sprep) (live : spepoch) (h : sp_replive r = some live) :
    live.type = SPLIVE := by
  have := List.find?_some h
  simpa using this

theorem sp_replive_put (r : sprep) (e live : spepoch) (he : e.type = SPLIVE)
    (h : sp_replive r = some live) : sp_replive (sp_repput r e) = some e :=
  sp_repputl_live e live r.l he h

/-- The successful single-statement write: what `sp_do` leaves when it
returns `0` outside a transaction. -/
theorem sp_do_ss_zero (o : spsys) (s s' : sp) (op : Nat) (k v : Bytes)
    (ht : s.txn = SPTSS) (h : sp_do o s op k v = some (0, s')) :
    ∃ live : spepoch, sp_replive s.rep = some live ∧
      s'.rep = sp_repput s.rep
        { live with
          log := { data := live.log.data ++ (s.lb ++
                     [spseg.vh (sp_vhmake o (o.crc32c (o.crc32c 0 k) v) k.length v.length op),
                      spseg.buf k, spseg.buf v]),
                   svp := live.log.data.length },
          nupdate := live.nupdate + 1 } ∧
      s'.i = (sp_iset s.env.cmp s.i
        { epoch := live.epoch, crc := o.crc32c (o.crc32c 0 k) v, flags := op, key := k,
          value := v }).1 ∧
      s'.itxn = s.itxn ∧ s'.txn = s.txn ∧ s'.lb = [] := by
  unfold sp_do at h
  cases hn : sp_vnewv o k v with
  | none =>
    simp only [hn] at h
    have h1 := congrArg (fun x => x.1) (Option.some.inj h)
    simp [sp_e] at h1
  | some n0 =>
    have hn0 : n0 = { epoch := 0, crc := 0, flags := 0, key := k, value := v } := by
      unfold sp_vnewv at hn
      split at hn
      · exact (Option.some.inj hn).symm
      · cases hn
    simp only [hn] at h
    have hm : ¬ s.txn = SPTMS := by rw [ht]; decide
    rw [if_neg hm] at h
    cases hl : sp_replive s.rep with
    | none => simp [hl] at h
    | some live =>
      simp only [hl] at h
      refine ⟨live, rfl, ?_⟩
      cases hw : o.logput 0 with
      | false =>
        simp only [hw, sp_logput, Bool.false_eq_true, if_false, if_true] at h
        have h1 := congrArg (fun x => x.1) (Option.some.inj h)
        simp [sp_e] at h1
      | true =>
        simp only [hw, sp_logput, if_true] at h
        rw [if_neg (by decide)] at h
        split at h
        · split at h
          · have h1 := congrArg (fun x => x.1) (Option.some.inj h)
            simp at h1
          · have h1 := congrArg (fun x => x.1) (Option.some.inj h)
            simp [sp_e] at h1
        · split at h
          · cases h
          · have h2 := congrArg (fun x => x.2) (Option.some.inj h)
            simp only at h2
            subst hn0
            rw [← h2]
            split <;>
              simp [sp_taskwakeup, sp_filesvp, sp_batchadd, sp_do_version, ht]

/-- The log after a successful single-statement write: the batch is written
as a whole, so the live log gains the segments the batch already held,
followed by the new record. -/
theorem sp_do_ss_zero_log (o : spsys) (s s' : sp) (op : Nat) (k v : Bytes)
    (ht : s.txn = SPTSS) (h : sp_do o s op k v = some (0, s')) :
    ∃ live live' : spepoch, sp_replive s.rep = some live ∧ sp_replive s'.rep = some live' ∧
      live'.log.data = live.log.data ++ (s.lb ++
        [spseg.vh (sp_vhmake o (o.crc32c (o.crc32c 0 k) v) k.length v.length op),
         spseg.buf k, spseg.buf v]) := by
  obtain ⟨live, hl, hrep, -, -, -⟩ := sp_do_ss_zero o s s' op k v ht h
  refine ⟨live,
    { live with
      log := { data := live.log.data ++ (s.lb ++
                 [spseg.vh (sp_vhmake o (o.crc32c (o.crc32c 0 k) v) k.length v.length op),
                  spseg.buf k, spseg.buf v]),
               svp := live.log.data.length },
      nupdate := live.nupdate + 1 }, hl, ?_, rfl⟩
  rw [hrep]
  exact sp_replive_put s.rep _ live (sp_replive_type s.rep live hl) hl

/-- The write inside a transaction: `sp_do` in multi-statement mode. -/
theorem sp_do_ms (o : spsys) (s : sp) (op : Nat) (k v : Bytes) (ht : s.txn = SPTMS) :
    sp_do o s op k v =
      if o.vnew = false then some (sp_e s SPEOOM false "failed to allocate version")
      else if o.iset 0 = false then
        some (sp_e s SPEOOM false "failed to allocate transacton key index page")
      else some (0, { s with itxn := (sp_iset s.env.cmp s.itxn
        { epoch := 0, crc := o.crc32c (o.crc32c 0 k) v, flags := op, key := k,
          value := v }).1 }) := by
  unfold sp_do sp_vnewv
  cases hv : o.vnew with
  | false => simp
  | true =>
    simp only [if_true, ht, Bool.true_eq_false, if_false]
    rfl

theorem sp_set_zero (o : spsys) (s s' : sp) (k v : Bytes) (h : sp_set o s k v = some (0, s')) :
    sp_evalidate s = false ∧ sp_rdonly s.env = false ∧ k.length ≤ 65535 ∧
    v.length ≤ 4294967295 ∧ s.lockc = 0 ∧ sp_do o s SPSET k v = some (0, s') := by
  unfold sp_set at h
  split at h
  · cases h
  · split at h
    · have h1 := congrArg (fun x => x.1) (Option.some.inj h); simp [sp_e] at h1
    · split at h
      · have h1 := congrArg (fun x => x.1) (Option.some.inj h); simp [sp_e] at h1
      · split at h
        · have h1 := congrArg (fun x => x.1) (Option.some.inj h); simp [sp_e] at h1
        · split at h
          · have h1 := congrArg (fun x => x.1) (Option.some.inj h); simp [sp_e] at h1
          · refine ⟨by simp_all, by simp_all, by omega, by omega, by omega, h⟩

theorem sp_delete_zero (o : spsys) (s s' : sp) (k : Bytes) (h : sp_delete o s k = some (0, s')) :
    sp_evalidate s = false ∧ sp_rdonly s.env = false ∧ k.length ≤ 65535 ∧ s.lockc = 0 ∧
    sp_do o s SPDEL k [] = some (0, s') := by
  unfold sp_delete at h
  split at h
  · cases h
  · split at h
    · have h1 := congrArg (fun x => x.1) (Option.some.inj h); simp [sp_e] at h1
    · split at h
      · have h1 := congrArg (fun x => x.1) (Option.some.inj h); simp [sp_e] at h1
      · split at h
        · have h1 := congrArg (fun x => x.1) (Option.some.inj h); simp [sp_e] at h1
        · refine ⟨by simp_all, by simp_all, by omega, by omega, h⟩

/-- C6: for every engine state, `sp_set` with `ksize > 65535` or
`vsize > 4294967295` returns `-1` and leaves the memory index, the staging
index and the repository (the live log and `nupdate`) unchanged, and
`sp_delete` rejects `ksize > 65535` the same way; with `ksize <= 65535` and
`vsize <= 4294967295` the size guards reject nothing: the call is decided by
the other checks and `sp_do`; and the record of an accepted `sp_delete` is a
`DEL` record with `vsize = 0` and no value bytes, staged inside a
transaction and written to the live log outside one: the write puts the
batch `s->lb` at the end of the log, that is the segments the batch already
held followed by the `DEL` record. -/
theorem C6_size_guards (o : spsys) (s : sp) :
    (∀ k v : Bytes, k.length > 65535 ∨ v.length > 4294967295 →
      ∃ s' : sp, sp_set o s k v = some (-1, s') ∧
        s'.i = s.i ∧ s'.itxn = s.itxn ∧ s'.rep = s.rep) ∧
    (∀ k : Bytes, k.length > 65535 →
      ∃ s' : sp, sp_delete o s k = some (-1, s') ∧
        s'.i = s.i ∧ s'.itxn = s.itxn ∧ s'.rep = s.rep) ∧
    (∀ k v : Bytes, k.length ≤ 65535 → v.length ≤ 4294967295 →
      sp_set o s k v =
        if sp_evalidate s then some (-1, s)
        else if sp_rdonly s.env then some (sp_e s SPE false "db handle is read-only")
        else if s.lockc ≠ 0 then some (sp_e s SPE false "modify with open cursor")
        else sp_do o s SPSET k v) ∧
    (∀ k : Bytes, k.length ≤ 65535 →
      sp_delete o s k =
        if sp_evalidate s then some (-1, s)
        else if sp_rdonly s.env then some (sp_e s SPE false "db handle is read-only")
        else if s.lockc ≠ 0 then some (sp_e s SPE false "modify with open cursor")
        else sp_do o s SPDEL k []) ∧
    (∀ (k : Bytes) (s' : sp), sp_delete o s k = some (0, s') →
      (sp_vhmake o (o.crc32c (o.crc32c 0 k) []) k.length 0 SPDEL).size = k.length ∧
      (sp_vhmake o (o.crc32c (o.crc32c 0 k) []) k.length 0 SPDEL).vsize = 0 ∧
      (sp_vhmake o (o.crc32c (o.crc32c 0 k) []) k.length 0 SPDEL).flags = SPDEL ∧
      (s.txn = SPTSS →
        ∃ live live' : spepoch, sp_replive s.rep = some live ∧
          sp_replive s'.rep = some live' ∧
          live'.log.data = live.log.data ++ (s.lb ++
            [spseg.vh (sp_vhmake o (o.crc32c (o.crc32c 0 k) []) k.length 0 SPDEL),
             spseg.buf k, spseg.buf []])) ∧
      (s.txn = SPTMS →
        s'.rep = s.rep ∧
        s'.itxn = (sp_iset s.env.cmp s.itxn
          { epoch := 0, crc := o.crc32c (o.crc32c 0 k) [], flags := SPDEL, key := k,
            value := [] }).1)) := by
  refine ⟨?_, ?_, ?_, ?_, ?_⟩
  · intro k v hkv
    unfold sp_set
    split
    · exact ⟨s, rfl, rfl, rfl, rfl⟩
    · split
      · exact ⟨_, rfl, rfl, rfl, rfl⟩
      · split
        · exact ⟨_, rfl, rfl, rfl, rfl⟩
        · split
          · exact ⟨_, rfl, rfl, rfl, rfl⟩
          · omega
  · intro k hk
    unfold sp_delete
    split
    · exact ⟨s, rfl, rfl, rfl, rfl⟩
    · split
      · exact ⟨_, rfl, rfl, rfl, rfl⟩
      · exact ⟨_, rfl, rfl, rfl, rfl⟩
  · intro k v hk hv
    unfold sp_set
    rw [if_neg (show ¬ k.length > 65535 by omega), if_neg (show ¬ v.length > 4294967295 by omega)]
  · intro k hk
    unfold sp_delete
    rw [if_neg (show ¬ k.length > 65535 by omega)]
  · intro k s' h
    obtain ⟨-, -, hk, -, hdo⟩ := sp_delete_zero o s s' k h
    refine ⟨?_, rfl, rfl, ?_, ?_⟩
    · show k.length % 65536 = k.length
      exact Nat.mod_eq_of_lt (by omega)
    · intro ht
      exact sp_do_ss_zero_log o s s' SPDEL k [] ht hdo
    · intro ht
      rw [sp_do_ms o s SPDEL k [] ht] at hdo
      split at hdo
      · have h1 := congrArg (fun x => x.1) (Option.some.inj hdo); simp [sp_e] at h1
      · split at hdo
        · have h1 := congrArg (fun x => x.1) (Option.some.inj hdo); simp [sp_e] at h1
        · have h2 := congrArg (fun x => x.2) (Option.some.inj hdo)
          simp only at h2
          rw [← h2]
          exact ⟨rfl, rfl⟩

/-- Witness for `C6_size_guards`: on a freshly opened engine a key of `2^16`
bytes and a value of `2^32` bytes are rejected, and an accepted delete writes
a record with `vsize = 0`. -/
theorem C6_size_guards_witness :
    (List.replicate 65536 0 : Bytes).length > 65535 ∧
    (∃ s' : sp,
      sp_set sys_ok (sp_opened sp_env_db) (List.replicate 65536 0) [] = some (-1, s') ∧
      s'.i = (sp_opened sp_env_db).i ∧ s'.itxn = (sp_opened sp_env_db).itxn ∧
      s'.rep = (sp_opened sp_env_db).rep) ∧
    (List.replicate 4294967296 0 : Bytes).length > 4294967295 ∧
    (∃ s' : sp,
      sp_set sys_ok (sp_opened sp_env_db) [97] (List.replicate 4294967296 0) = some (-1, s') ∧
      s'.i = (sp_opened sp_env_db).i ∧ s'.itxn = (sp_opened sp_env_db).itxn ∧
      s'.rep = (sp_opened sp_env_db).rep) ∧
    (∃ s' : sp, sp_delete sys_ok (sp_opened sp_env_db) [97] = some (0, s') ∧
      (sp_vhmake sys_ok (sys_ok.crc32c (sys_ok.crc32c 0 [97]) []) 1 0 SPDEL).vsize = 0) :=
  ⟨by rw [List.length_replicate]; decide,
   (C6_size_guards sys_ok (sp_opened sp_env_db)).1 _ _
     (Or.inl (by rw [List.length_replicate]; decide)),
   by rw [List.length_replicate]; decide,
   (C6_size_guards sys_ok (sp_opened sp_env_db)).1 _ _
     (Or.inr (by rw [List.length_replicate]; decide)),
   ⟨_, rfl, ((C6_size_guards sys_ok (sp_opened sp_env_db)).2.2.2.2 [97] _ rfl).2.1⟩⟩

/-! ## Staging inside a transaction -/

theorem sp_isetl_mem_new (cmp : Bytes → Bytes → Int) (l : List spv) (v : spv) :
    v ∈ (sp_isetl cmp l v).1 := by
  induction l with
  | nil => simp [sp_isetl]
  | cons x xs ih =>
    unfold sp_isetl
    split
    · simp
    · split
      · simp
      · simp [ih]

theorem sp_isetl_mem_old (cmp : Bytes → Bytes → Int) (l : List spv) (v x : spv)
    (hx : x ∈ l) (hc : cmp x.key v.key ≠ 0) : x ∈ (sp_isetl cmp l v).1 := by
  induction l with
  | nil => simp at hx
  | cons y ys ih =>
    unfold sp_isetl
    rcases List.mem_cons.1 hx with rfl | hx'
    · rw [if_neg hc]
      split <;> simp
    · split
      · simp [hx']
      · split
        · simp [hx']
        · simp [ih hx']

theorem sp_isetl_mem_sub (cmp : Bytes → Bytes → Int) (l : List spv) (v y : spv)
    (hy : y ∈ (sp_isetl cmp l v).1) : y = v ∨ y ∈ l := by
  induction l with
  | nil => simpa [sp_isetl] using hy
  | cons x xs ih =>
    unfold sp_isetl at hy
    split at hy
    · rcases List.mem_cons.1 hy with h | h
      · exact Or.inl h
      · exact Or.inr (List.mem_cons_of_mem _ h)
    · split at hy
      · rcases List.mem_cons.1 hy with h | h
        · exact Or.inl h
        · exact Or.inr h
      · rcases List.mem_cons.1 hy with h | h
        · exact Or.inr (by simp [h])
        · rcases ih h with h' | h'
          · exact Or.inl h'
          · exact Or.inr (List.mem_cons_of_mem _ h')

theorem sp_igetl_isetl (cmp : Bytes → Bytes → Int) (l : List spv) (v : spv)
    (hr : cmp v.key v.key = 0) : sp_igetl cmp (sp_isetl cmp l v).1 v.key = some v := by
  induction l with
  | nil => simp [sp_isetl, sp_igetl, hr]
  | cons x xs ih =>
    unfold sp_isetl
    split
    · simp [sp_igetl, hr]
    · split
      · simp [sp_igetl, hr]
      · rename_i h0 h1
        show sp_igetl cmp (x :: (sp_isetl cmp xs v).1) v.key = some v
        rw [sp_igetl, if_neg h0, if_neg h1]
        exact ih

theorem sp_write_ms_zero (o : spsys) (s s' : sp) (w : spop) (ht : s.txn = SPTMS)
    (h : sp_write o s w = some (0, s')) :
    s' = { s with itxn := (sp_iset s.env.cmp s.itxn (sp_opversion o w)).1 } := by
  have key : ∀ (op : Nat) (k v : Bytes), sp_do o s op k v = some (0, s') →
      s' = { s with itxn := (sp_iset s.env.cmp s.itxn
        { epoch := 0, crc := o.crc32c (o.crc32c 0 k) v, flags := op, key := k,
          value := v }).1 } := by
    intro op k v hdo
    rw [sp_do_ms o s op k v ht] at hdo
    split at hdo
    · have h1 := congrArg (fun x => x.1) (Option.some.inj hdo); simp [sp_e] at h1
    · split at hdo
      · have h1 := congrArg (fun x => x.1) (Option.some.inj hdo); simp [sp_e] at h1
      · have h2 := congrArg (fun x => x.2) (Option.some.inj hdo)
        exact h2.symm
  cases w with
  | set k v => exact key SPSET k v (sp_set_zero o s s' k v h).2.2.2.2.2
  | del k => exact key SPDEL k [] (sp_delete_zero o s s' k h).2.2.2.2

/-- C7: for every engine state in multi-statement mode and every accepted
`sp_set` or `sp_delete`, the operation changes only the staging index
`itxn`, where the new version is stored under its key, a staged version
with an equal key being replaced: the memory index `i`, the repository (the
live log and `nupdate`), `txn` and every other field are unchanged, so a
lookup in `i` gives the same result for every key before and after. -/
theorem C7_ms_staging_isolation (o : spsys) (s s' : sp) (w : spop) (ht : s.txn = SPTMS)
    (h : sp_write o s w = some (0, s')) :
    s' = { s with itxn := (sp_iset s.env.cmp s.itxn (sp_opversion o w)).1 } ∧
    s'.i = s.i ∧ s'.rep = s.rep ∧ s'.txn = s.txn ∧
    (∀ k : Bytes, sp_match s' k = sp_match s k) ∧
    (∀ k : Bytes, (sp_get s' k).1 = (sp_get s k).1 ∧ (sp_get s' k).2.1 = (sp_get s k).2.1) ∧
    sp_opversion o w ∈ s'.itxn.l ∧
    (s.env.cmp (sp_opversion o w).key (sp_opversion o w).key = 0 →
      sp_igetl s.env.cmp s'.itxn.l (sp_opversion o w).key = some (sp_opversion o w)) ∧
    (∀ x ∈ s.itxn.l, s.env.cmp x.key (sp_opversion o w).key ≠ 0 → x ∈ s'.itxn.l) ∧
    (∀ y ∈ s'.itxn.l, y = sp_opversion o w ∨ y ∈ s.itxn.l) := by
  have hs := sp_write_ms_zero o s s' w ht h
  subst hs
  refine ⟨rfl, rfl, rfl, rfl, fun k => rfl, fun k => ?_, ?_, ?_, ?_, ?_⟩
  · unfold sp_get
    by_cases hv : sp_evalidate s = true
    · have hv' : sp_evalidate { s with itxn := (sp_iset s.env.cmp s.itxn (sp_opversion o w)).1 }
          = true := hv
      rw [if_pos hv, if_pos hv']
      exact ⟨rfl, rfl⟩
    · have hv' : ¬ sp_evalidate { s with itxn := (sp_iset s.env.cmp s.itxn (sp_opversion o w)).1 }
          = true := hv
      rw [if_neg hv, if_neg hv']
      by_cases hk : k.length > 65535
      · rw [if_pos hk, if_pos hk]
        exact ⟨rfl, rfl⟩
      · rw [if_neg hk, if_neg hk]
        exact ⟨rfl, rfl⟩
  · exact sp_isetl_mem_new _ _ _
  · intro hr
    exact sp_igetl_isetl _ _ _ hr
  · intro x hx hc
    exact sp_isetl_mem_old _ _ _ _ hx hc
  · intro y hy
    exact sp_isetl_mem_sub _ _ _ _ hy

/-- Witness for `C7_ms_staging_isolation`: `sp_set("a", "b")` inside a
transaction on a freshly opened engine is accepted and stages one version. -/
theorem C7_ms_staging_isolation_witness :
    ({ sp_opened sp_env_db with txn := SPTMS } : sp).txn = SPTMS ∧
    ∃ s' : sp,
      sp_write sys_ok { sp_opened sp_env_db with txn := SPTMS } (spop.set [97] [98])
        = some (0, s') ∧
      s'.i = (sp_opened sp_env_db).i ∧ s'.rep = (sp_opened sp_env_db).rep ∧
      sp_opversion sys_ok (spop.set [97] [98]) ∈ s'.itxn.l :=
  ⟨rfl, _, rfl,
    (C7_ms_staging_isolation sys_ok { sp_opened sp_env_db with txn := SPTMS } _
      (spop.set [97] [98]) rfl rfl).2.1,
    (C7_ms_staging_isolation sys_ok { sp_opened sp_env_db with txn := SPTMS } _
      (spop.set [97] [98]) rfl rfl).2.2.1,
    (C7_ms_staging_isolation sys_ok { sp_opened sp_env_db with txn := SPTMS } _
      (spop.set [97] [98]) rfl rfl).2.2.2.2.2.2.1⟩

/-! ## Rollback -/

theorem sp_ve_fatal (e : spe) (t : spetype) (msg : String) :
    (sp_ve e t false msg).fatal = e.fatal := by
  unfold sp_ve
  by_cases he : sp_eis e = true
  · rw [if_pos he]
  · rw [if_neg he]
    have hfa : e.fatal = false := by
      cases hfa : e.fatal with
      | false => rfl
      | true => exact absurd (by simp [sp_eis, hfa]) he
    rw [hfa]

/-- Inside a transaction a write request always returns, and whatever it
returns it leaves everything but the staging index and the error slot as it
was, without marking the engine fatal. -/
theorem sp_write_ms_frame (o : spsys) (s : sp) (w : spop) (ht : s.txn = SPTMS) :
    ∃ r : Int × sp, sp_write o s w = some r ∧ r.2.txn = SPTMS ∧ r.2.i = s.i ∧
      r.2.rep = s.rep ∧ r.2.env = s.env ∧ r.2.lockc = s.lockc ∧ r.2.e.fatal = s.e.fatal := by
  have herr : ∀ (t : spetype) (msg : String),
      (sp_e s t false msg).2.txn = SPTMS ∧ (sp_e s t false msg).2.i = s.i ∧
      (sp_e s t false msg).2.rep = s.rep ∧ (sp_e s t false msg).2.env = s.env ∧
      (sp_e s t false msg).2.lockc = s.lockc ∧ (sp_e s t false msg).2.e.fatal = s.e.fatal :=
    fun t msg => ⟨ht, rfl, rfl, rfl, rfl, sp_ve_fatal _ _ _⟩
  have hdo : ∀ (op : Nat) (k v : Bytes),
      ∃ r : Int × sp, sp_do o s op k v = some r ∧ r.2.txn = SPTMS ∧ r.2.i = s.i ∧
        r.2.rep = s.rep ∧ r.2.env = s.env ∧ r.2.lockc = s.lockc ∧ r.2.e.fatal = s.e.fatal := by
    intro op k v
    rw [sp_do_ms o s op k v ht]
    split
    · exact ⟨_, rfl, herr _ _⟩
    · split
      · exact ⟨_, rfl, herr _ _⟩
      · exact ⟨_, rfl, ht, rfl, rfl, rfl, rfl, rfl⟩
  cases w with
  | set k v =>
    show ∃ r : Int × sp, sp_set o s k v = some r ∧ _
    unfold sp_set
    split
    · exact ⟨_, rfl, ht, rfl, rfl, rfl, rfl, rfl⟩
    · split
      · exact ⟨_, rfl, herr _ _⟩
      · split
        · exact ⟨_, rfl, herr _ _⟩
        · split
          · exact ⟨_, rfl, herr _ _⟩
          · split
            · exact ⟨_, rfl, herr _ _⟩
            · exact hdo SPSET k v
  | del k =>
    show ∃ r : Int × sp, sp_delete o s k = some r ∧ _
    unfold sp_delete
    split
    · exact ⟨_, rfl, ht, rfl, rfl, rfl, rfl, rfl⟩
    · split
      · exact ⟨_, rfl, herr _ _⟩
      · split
        · exact ⟨_, rfl, herr _ _⟩
        · split
          · exact ⟨_, rfl, herr _ _⟩
          · exact hdo SPDEL k []

theorem sp_writes_ms_frame (ws : List (spsys × spop)) (s : sp) (ht : s.txn = SPTMS) :
    ∃ s1 : sp, sp_writes ws s = some s1 ∧ s1.txn = SPTMS ∧ s1.i = s.i ∧
      s1.rep = s.rep ∧ s1.env = s.env ∧ s1.lockc = s.lockc ∧ s1.e.fatal = s.e.fatal := by
  induction ws generalizing s with
  | nil => exact ⟨s, rfl, ht, rfl, rfl, rfl, rfl, rfl⟩
  | cons ow ws ih =>
    obtain ⟨o, w⟩ := ow
    obtain ⟨r, hr, h1, h2, h3, h4, h5, h6⟩ := sp_write_ms_frame o s w ht
    obtain ⟨s1, hs1, g1, g2, g3, g4, g5, g6⟩ := ih r.2 h1
    refine ⟨s1, ?_, g1, g2.trans h2, g3.trans h3, g4.trans h4, g5.trans h5, g6.trans h6⟩
    simp only [sp_writes, hr]
    exact hs1

theorem sp_match_congr (s t : sp) (k : Bytes) (hi : t.i = s.i) (he : t.env = s.env) :
    sp_match t k = sp_match s k := by
  unfold sp_match
  rw [hi, he]

theorem sp_get_congr (s t : sp) (k : Bytes) (hi : t.i = s.i) (he : t.env = s.env)
    (hf : t.e.fatal = s.e.fatal) :
    (sp_get t k).1 = (sp_get s k).1 ∧ (sp_get t k).2.1 = (sp_get s k).2.1 := by
  have hm := sp_match_congr s t k hi he
  have hv : sp_evalidate t = sp_evalidate s := hf
  unfold sp_get
  rw [hv, hm]
  split
  · exact ⟨rfl, rfl⟩
  · split
    · exact ⟨rfl, rfl⟩
    · exact ⟨rfl, rfl⟩

/-- C8: for every engine state that is not fatal, in single-statement mode,
with `lockc = 0` and an empty staging index, and every finite sequence of
`sp_set` and `sp_delete` calls (whatever their outcomes), running `sp_begin`,
the sequence and `sp_rollback` always returns; the rollback succeeds exactly
when the truncation of the staging index does, and then the memory index
`i` and the repository (the live log, `nupdate`) are exactly as before
`sp_begin`, `itxn` is empty and `txn = SS`; hence the lookup of any key
returns what it returned before `sp_begin`. -/
theorem C8_rollback_restores (orb : spsys) (ws : List (spsys × spop)) (s : sp)
    (hf : s.e.fatal = false) (ht : s.txn = SPTSS) (hl : s.lockc = 0) (hi : s.itxn.l = []) :
    ∃ r : Int × sp, sp_begin_writes_rollback orb ws s = some r ∧
      (r.1 = 0 ↔ orb.itruncate = true) ∧
      (r.1 = 0 →
        r.2.i = s.i ∧ r.2.rep = s.rep ∧ r.2.itxn.l = [] ∧ r.2.itxn = s.itxn ∧
        r.2.txn = SPTSS ∧ r.2.env = s.env ∧
        (∀ k : Bytes, sp_match r.2 k = sp_match s k) ∧
        (∀ k : Bytes,
          (sp_get r.2 k).1 = (sp_get s k).1 ∧ (sp_get r.2 k).2.1 = (sp_get s k).2.1)) := by
  have hv : sp_evalidate s = false := hf
  have hb : sp_begin s = (0, { s with txn := SPTMS }) := by
    simp [sp_begin, hv, ht, hl]
  obtain ⟨s1, hs1, g1, g2, g3, g4, g5, g6⟩ :=
    sp_writes_ms_frame ws { s with txn := SPTMS } rfl
  have hv1 : sp_evalidate s1 = false := by
    show s1.e.fatal = false
    rw [g6]; exact hf
  have hl1 : s1.lockc = 0 := by rw [g5]; exact hl
  have hts : ¬ s1.txn = SPTSS := by rw [g1]; decide
  have hrun : sp_begin_writes_rollback orb ws s = some (sp_rollback orb s1) := by
    unfold sp_begin_writes_rollback
    rw [hb]
    simp only [hs1]
  refine ⟨sp_rollback orb s1, hrun, ?_, ?_⟩
  · unfold sp_rollback
    rw [hv1]
    simp only [Bool.false_eq_true, if_false, hts, hl1, ne_eq, not_true_eq_false]
    cases hor : orb.itruncate <;> simp [sp_e]
  · cases hor : orb.itruncate with
    | false =>
      have hroll : (sp_rollback orb s1).1 = -1 := by
        unfold sp_rollback
        rw [hv1]
        simp [hts, hl1, hor, sp_e]
      intro h0
      rw [hroll] at h0
      exact absurd h0 (by decide)
    | true =>
      have hroll : sp_rollback orb s1 = (0, { s1 with itxn := { l := [] }, txn := SPTSS }) := by
        unfold sp_rollback
        rw [hv1]
        simp [hts, hl1, hor]
      rw [hroll]
      intro _
      have hitxn : ({ l := [] } : spi) = s.itxn := by
        cases hq : s.itxn with
        | mk l =>
          rw [hq] at hi
          simp only at hi
          rw [hi]
      refine ⟨g2, g3, rfl, hitxn, rfl, g4, ?_, ?_⟩
      · intro k
        exact sp_match_congr s _ k g2 g4
      · intro k
        exact sp_get_congr s _ k g2 g4 (by show s1.e.fatal = s.e.fatal; rw [g6])

/-- Witness for `C8_rollback_restores`: on a freshly opened engine the
transaction `sp_set("a","b")`, `sp_delete("c")`, rolled back, leaves the
memory index and the repository as they were. -/
theorem C8_rollback_restores_witness :
    (sp_opened sp_env_db).e.fatal = false ∧ (sp_opened sp_env_db).txn = SPTSS ∧
    (sp_opened sp_env_db).lockc = 0 ∧ (sp_opened sp_env_db).itxn.l = [] ∧
    ∃ r : Int × sp,
      sp_begin_writes_rollback sys_ok
        [(sys_ok, spop.set [97] [98]), (sys_ok, spop.del [99])] (sp_opened sp_env_db) = some r ∧
      (r.1 = 0 ↔ sys_ok.itruncate = true) ∧
      (r.1 = 0 →
        r.2.i = (sp_opened sp_env_db).i ∧ r.2.rep = (sp_opened sp_env_db).rep ∧
        r.2.itxn.l = [] ∧ r.2.itxn = (sp_opened sp_env_db).itxn ∧
        r.2.txn = SPTSS ∧ r.2.env = (sp_opened sp_env_db).env ∧
        (∀ k : Bytes, sp_match r.2 k = sp_match (sp_opened sp_env_db) k) ∧
        (∀ k : Bytes,
          (sp_get r.2 k).1 = (sp_get (sp_opened sp_env_db) k).1 ∧
          (sp_get r.2 k).2.1 = (sp_get (sp_opened sp_env_db) k).2.1)) :=
  ⟨rfl, rfl, rfl, rfl,
    C8_rollback_restores sys_ok [(sys_ok, spop.set [97] [98]), (sys_ok, spop.del [99])]
      (sp_opened sp_env_db) rfl rfl rfl rfl⟩

/-! ## Commit -/

theorem sp_commit_flush_seen (o : spsys) (j : Nat) (c : spcommit) :
    (sp_commit_flush o j c).seen = c.seen := by
  unfold sp_commit_flush
  split <;> rfl

theorem sp_commit_loop_staged (o : spsys) (cmp : Bytes → Bytes → Int) (ep : Nat) (vs : List spv) :
    ∀ (j : Nat) (c : spcommit) (l : List spv),
      (sp_commit_loop o cmp ep vs j c).staged = some l →
      l.length = c.seen.length + vs.length := by
  induction vs with
  | nil =>
    intro j c l h
    simp only [sp_commit_loop, spcommitr.staged, Option.some.injEq] at h
    rw [← h]; rfl
  | cons v vs ih =>
    intro j c l h
    unfold sp_commit_loop at h
    by_cases hA : sp_batchensure o.iovmax c.lb 3 = false ∧ (sp_logput (o.logput j) c.log c.lb).1 = -1
    · rw [if_pos hA] at h
      simp only [spcommitr.staged, Option.some.injEq] at h
      rw [← h]; simp
    · rw [if_neg hA] at h
      by_cases hB : ¬ ((sp_commit_flush o j c).hpos < sizeof_spvh * 512)
      · rw [if_pos hB] at h
        simp [spcommitr.staged] at h
      · rw [if_neg hB] at h
        by_cases hC : o.iset j = false
        · rw [if_pos hC] at h
          simp only [spcommitr.staged, Option.some.injEq] at h
          rw [← h]
          simp [sp_commit_add, sp_commit_flush_seen]
        · rw [if_neg hC] at h
          have h' := ih _ _ l h
          rw [h']
          simp [sp_commit_add, sp_commit_flush_seen]
          omega

/-- The exit `abort` of `sp_commit`: with an empty error slot the error is
recorded with the fatal flag, so `sp_rollback` returns at once and the
transaction stays open with its staged versions; with an error already in
the slot nothing is recorded and the engine is not marked fatal. -/
theorem sp_commit_abort_spec (o : spsys) (s : sp) (live : spepoch) (c : spcommit)
    (staged : List spv) (t : spetype) (msg : String) (r : Int × sp)
    (h : sp_commit_abort o s live c staged t msg = some r) :
    (sp_eis s.e = false →
      r.2.e = { type := t, fatal := true, e := msg } ∧ r.2.txn = s.txn ∧
      r.2.itxn.l = staged) ∧
    (sp_eis s.e = true → r.2.e = s.e) := by
  unfold sp_commit_abort at h
  simp only [] at h
  split at h
  · cases h
  · cases h
    constructor
    · intro he
      have h1 : (sp_e { s with i := c.i, itxn := { l := staged }, lb := sp_batchstale c.lb }
            t true msg).2
          = { s with i := c.i, itxn := { l := staged }, lb := sp_batchstale c.lb,
                     e := { type := t, fatal := true, e := msg } } := by
        rw [sp_e_snd]
        show ({ s with i := c.i, itxn := { l := staged }, lb := sp_batchstale c.lb,
                       e := sp_ve s.e t true msg } : sp) = _
        rw [sp_ve_of_empty _ _ _ _ he]
      simp only []
      rw [h1]
      have h2 : sp_rollback o
          { s with i := c.i, itxn := { l := staged }, lb := sp_batchstale c.lb,
                   e := { type := t, fatal := true, e := msg } }
          = (-1, { s with i := c.i, itxn := { l := staged }, lb := sp_batchstale c.lb,
                          e := { type := t, fatal := true, e := msg } }) := by
        simp [sp_rollback, sp_evalidate]
      rw [h2]
      exact ⟨rfl, rfl, rfl⟩
    · intro he
      have h1 : (sp_e { s with i := c.i, itxn := { l := staged }, lb := sp_batchstale c.lb }
            t true msg).2
          = { s with i := c.i, itxn := { l := staged }, lb := sp_batchstale c.lb } := by
        rw [sp_e_snd]
        show ({ s with i := c.i, itxn := { l := staged }, lb := sp_batchstale c.lb,
                       e := sp_ve s.e t true msg } : sp) = _
        rw [sp_ve_of_error _ _ _ _ he]
      simp only []
      rw [h1]
      show (sp_rollback o
        { s with i := c.i, itxn := { l := staged }, lb := sp_batchstale c.lb }).2.e = s.e
      unfold sp_rollback
      split
      · rfl
      · split
        · exact sp_ve_of_error _ _ _ _ he
        · split
          · exact sp_ve_of_error _ _ _ _ he
          · split
            · exact sp_ve_of_error _ _ _ _ he
            · rfl

/-- C10: a failing `sp_commit` does not leave the state the claim describes.
For every engine in multi-statement mode that is not fatal, has `lockc = 0`
and a non-empty staging index, when `sp_commit` returns `-1`: if the error
slot was empty the engine is marked fatal, but the transaction is still
open (`txn = MS`) and the staging index still holds as many versions as
before, because `sp_rollback` returns at once on a fatal engine; and if the
slot already held an error it is left as it was, so the engine is not
marked fatal.  Either way the engine is not at once fatal, in
single-statement mode and with an empty staging index. -/
theorem C10_commit_failure_leaves_transaction_open (o : spsys) (s s' : sp)
    (hf : s.e.fatal = false) (ht : s.txn = SPTMS) (hl : s.lockc = 0)
    (hn : s.itxn.count ≠ 0) (h : sp_commit o s = some (-1, s')) :
    (sp_eis s.e = false →
      s'.e.fatal = true ∧ s'.txn = SPTMS ∧ s'.itxn.count = s.itxn.count) ∧
    (sp_eis s.e = true → s'.e = s.e ∧ s'.e.fatal = false) ∧
    ¬ (s'.e.fatal = true ∧ s'.itxn.l = [] ∧ s'.txn = SPTSS) := by
  have hv : sp_evalidate s = false := hf
  have hts : ¬ s.txn = SPTSS := by rw [ht]; decide
  have habort : ∀ (live : spepoch) (c : spcommit) (staged : List spv) (t : spetype)
      (msg : String), staged.length = s.itxn.count →
      sp_commit_abort o s live c staged t msg = some (-1, s') →
      (sp_eis s.e = false →
        s'.e.fatal = true ∧ s'.txn = SPTMS ∧ s'.itxn.count = s.itxn.count) ∧
      (sp_eis s.e = true → s'.e = s.e ∧ s'.e.fatal = false) := by
    intro live c staged t msg hlen hs'
    have hspec := sp_commit_abort_spec o s live c staged t msg _ hs'
    constructor
    · intro he
      obtain ⟨g1, g2, g3⟩ := hspec.1 he
      refine ⟨by rw [g1], by rw [g2, ht], ?_⟩
      show s'.itxn.l.length = s.itxn.count
      rw [g3, hlen]
    · intro he
      have g := hspec.2 he
      exact ⟨g, by rw [g, hf]⟩
  have hmain : (sp_eis s.e = false →
        s'.e.fatal = true ∧ s'.txn = SPTMS ∧ s'.itxn.count = s.itxn.count) ∧
      (sp_eis s.e = true → s'.e = s.e ∧ s'.e.fatal = false) := by
    unfold sp_commit at h
    rw [hv] at h
    simp only [Bool.false_eq_true, if_false] at h
    rw [if_neg hts, if_neg (by simp [hl]), if_neg hn] at h
    cases hlive : sp_replive s.rep with
    | none => simp [hlive] at h
    | some live =>
      simp only [hlive] at h
      cases hloop : sp_commit_loop o s.env.cmp live.epoch s.itxn.l 0
          { log := sp_filesvp live.log, lb := s.lb, hpos := 0, i := s.i, seen := [],
            ins := 0 } with
      | assertfail => simp [hloop] at h
      | abort c rest t msg =>
        simp only [hloop] at h
        have hlen := sp_commit_loop_staged o s.env.cmp live.epoch s.itxn.l 0 _ (c.seen ++ rest)
          (by rw [hloop]; rfl)
        exact habort live c (c.seen ++ rest) t msg (by simpa [spi.count] using hlen) h
      | ok c =>
        simp only [hloop] at h
        have hlen := sp_commit_loop_staged o s.env.cmp live.epoch s.itxn.l 0 _ c.seen
          (by rw [hloop]; rfl)
        split at h
        · exact habort live _ c.seen SPEIO "failed to write log file"
            (by simpa [spi.count] using hlen) h
        · have h1 := congrArg (fun x => x.1) (Option.some.inj h)
          simp at h1
  refine ⟨hmain.1, hmain.2, ?_⟩
  rintro ⟨g1, -, g3⟩
  cases he : sp_eis s.e with
  | false =>
    have := (hmain.1 he).2.1
    rw [g3] at this
    exact absurd this (by decide)
  | true =>
    have := (hmain.2 he).2
    rw [g1] at this
    exact absurd this (by decide)

/-- Witness for `C10_commit_failure_leaves_transaction_open`: on a freshly
opened engine with one staged version, a commit whose log write fails
returns `-1` and leaves the engine fatal, in multi-statement mode, with the
version still staged and the live log as it was. -/
theorem C10_commit_failure_leaves_transaction_open_witness :
    ∃ s' : sp,
      sp_commit { sys_ok with logput := fun _ => false }
        { sp_opened sp_env_db with
          txn := SPTMS, itxn := { l := [sp_opversion sys_ok (spop.set [97] [49])] } }
        = some (-1, s') ∧
      (s'.e.fatal = true ∧ s'.txn = SPTMS ∧ s'.itxn.count = 1) ∧
      s'.itxn.l ≠ [] ∧
      (sp_replive s'.rep).map (fun e => e.log.data) = some [spseg.logh] :=
  ⟨_, rfl,
    (C10_commit_failure_leaves_transaction_open { sys_ok with logput := fun _ => false }
      { sp_opened sp_env_db with
        txn := SPTMS, itxn := { l := [sp_opversion sys_ok (spop.set [97] [49])] } } _
      rfl rfl rfl (by decide) rfl).1 rfl,
    by decide, by decide⟩

/-! ## Write-log-then-index -/

theorem sp_recordat_append (v : spv) (d t : List spseg) (h : sp_recordat v d = true) :
    sp_recordat v (d ++ t) = true := by
  match d, h with
  | spseg.vh hh :: spseg.buf k :: spseg.buf x :: rest, h =>
    simpa [sp_recordat] using h

theorem sp_logholds_append (v : spv) (d t : List spseg) (h : sp_logholds v d = true) :
    sp_logholds v (d ++ t) = true := by
  induction d with
  | nil => simp [sp_logholds] at h
  | cons x xs ih =>
    simp only [sp_logholds, Bool.or_eq_true] at h
    simp only [List.cons_append, sp_logholds, Bool.or_eq_true]
    rcases h with h | h
    · exact Or.inl (sp_recordat_append v (x :: xs) t h)
    · exact Or.inr (ih h)

theorem sp_logholds_record (v : spv) (d : List spseg) (h : spvh) (hf : h.flags = v.flags % 256) :
    sp_logholds v (d ++ [spseg.vh h, spseg.buf v.key, spseg.buf v.value]) = true := by
  induction d with
  | nil => simp [sp_logholds, sp_recordat, hf]
  | cons x xs ih =>
    simp only [List.cons_append, sp_logholds, Bool.or_eq_true]
    exact Or.inr ih

theorem sp_repputl_mem (live' : spepoch) (l : List spepoch)
    (h : ∃ e ∈ l, e.type = SPLIVE) : live' ∈ sp_repputl live' l := by
  induction l with
  | nil => simp at h
  | cons x xs ih =>
    unfold sp_repputl
    by_cases hx : x.type = SPLIVE
    · rw [if_pos hx]; exact List.mem_cons_self _ _
    · rw [if_neg hx]
      obtain ⟨e, he, ht⟩ := h
      rcases List.mem_cons.1 he with rfl | he'
      · exact absurd ht hx
      · exact List.mem_cons_of_mem _ (ih ⟨e, he', ht⟩)

theorem sp_replive_first (l : List spepoch) (live e : spepoch)
    (h : l.find? (fun x => x.type = SPLIVE) = some live) :
    ∀ (xs : List spepoch), sp_repputl e l = xs →
      ∀ v : spv,
        (live.epoch = e.epoch ∧
          (sp_logholds v live.log.data = true → sp_logholds v e.log.data = true)) →
        l.any (fun x => decide (x.epoch = v.epoch) && sp_logholds v x.log.data) = true →
        xs.any (fun x => decide (x.epoch = v.epoch) && sp_logholds v x.log.data) = true := by
  induction l with
  | nil => simp at h
  | cons x rest ih =>
    intro xs hxs v hext hany
    by_cases hx : x.type = SPLIVE
    · have hxl : x = live := by
        simp only [List.find?, hx, decide_True] at h
        exact Option.some.inj h
      rw [← hxs]
      unfold sp_repputl
      rw [if_pos hx]
      simp only [List.any_cons, Bool.or_eq_true, Bool.and_eq_true, decide_eq_true_eq] at hany ⊢
      rcases hany with ⟨h1, h2⟩ | hr
      · rw [hxl] at h1 h2
        exact Or.inl ⟨by rw [← hext.1]; exact h1, hext.2 h2⟩
      · exact Or.inr hr
    · simp only [List.find?, hx, decide_False] at h
      rw [← hxs]
      unfold sp_repputl
      rw [if_neg hx]
      simp only [List.any_cons, Bool.or_eq_true, Bool.and_eq_true, decide_eq_true_eq] at hany ⊢
      rcases hany with hl | hr
      · exact Or.inl hl
      · exact Or.inr (ih h _ rfl v hext hr)

theorem sp_logged_put (r : sprep) (live e : spepoch) (v : spv)
    (hl : sp_replive r = some live) (hep : live.epoch = e.epoch)
    (hext : sp_logholds v live.log.data = true → sp_logholds v e.log.data = true)
    (h : sp_logged r v = true) : sp_logged (sp_repput r e) v = true :=
  sp_replive_first r.l live e hl _ rfl v ⟨hep, hext⟩ h

theorem sp_logged_index_put (s t : sp) (live e : spepoch) (hl : sp_replive s.rep = some live)
    (hi : t.i = s.i) (hr : t.rep = sp_repput s.rep e) (hep : live.epoch = e.epoch)
    (hext : ∀ v : spv, sp_logholds v live.log.data = true → sp_logholds v e.log.data = true)
    (h : sp_logged_index s = true) : sp_logged_index t = true := by
  unfold sp_logged_index at h ⊢
  rw [List.all_eq_true] at h ⊢
  rw [hi, hr]
  intro v hv
  exact sp_logged_put s.rep live e v hl hep (hext v) (h v hv)

theorem sp_logged_index_same (s t : sp) (hi : t.i = s.i) (hr : t.rep = s.rep) :
    sp_logged_index t = sp_logged_index s := by
  unfold sp_logged_index
  rw [hi, hr]

theorem sp_logrlb_data (ok : Bool) (d b : List spseg) :
    (sp_logrlb ok { data := d ++ b, svp := d.length }).2.data = d ∨
    (sp_logrlb ok { data := d ++ b, svp := d.length }).2.data = d ++ b := by
  cases ok
  · exact Or.inr rfl
  · left
    simp [sp_logrlb]

theorem sp_do_rlb_logged (o : spsys) (s : sp) (live : spepoch) (lg : spfile) (b : List spseg)
    (hl : sp_replive s.rep = some live) (hsvp : lg.svp = live.log.data.length)
    (hdata : lg.data = live.log.data ++ b) (h : sp_logged_index s = true) :
    sp_logged_index (sp_do_rlb o s live lg).2 = true := by
  have hlg : lg = { data := live.log.data ++ b, svp := live.log.data.length } := by
    cases lg
    simp only at hsvp hdata
    rw [hsvp, hdata]
  rw [hlg]
  have hf := sp_do_rlb_frame o s live { data := live.log.data ++ b, svp := live.log.data.length }
  refine sp_logged_index_put s _ live
    { live with log := (sp_logrlb o.logrlb
        { data := live.log.data ++ b, svp := live.log.data.length }).2 } hl hf.2.1 ?_ rfl ?_ h
  · unfold sp_do_rlb
    by_cases hc : (sp_logrlb o.logrlb
        { data := live.log.data ++ b, svp := live.log.data.length }).1 = -1 <;> simp [hc]
  · intro v hv
    rcases sp_logrlb_data o.logrlb live.log.data b with hd | hd
    · show sp_logholds v (sp_logrlb o.logrlb
          { data := live.log.data ++ b, svp := live.log.data.length }).2.data = true
      rw [hd]; exact hv
    · show sp_logholds v (sp_logrlb o.logrlb
          { data := live.log.data ++ b, svp := live.log.data.length }).2.data = true
      rw [hd]; exact sp_logholds_append v _ _ hv

/-- The single record write keeps write-log-then-index: the version enters
the memory index only after its record is in the live log, and a failed
write leaves the records of the indexed versions in place. -/
theorem sp_do_logged (o : spsys) (s : sp) (op : Nat) (k v : Bytes) (r : Int × sp)
    (hinv : sp_logged_index s = true) (h : sp_do o s op k v = some r) :
    sp_logged_index r.2 = true := by
  unfold sp_do at h
  cases hn : sp_vnewv o k v with
  | none =>
    simp only [hn] at h
    cases h
    exact (sp_logged_index_same s _ rfl rfl).trans hinv
  | some n0 =>
    simp only [hn] at h
    by_cases hm : s.txn = SPTMS
    · rw [if_pos hm] at h
      by_cases hi : o.iset 0 = false
      · rw [if_pos hi] at h
        cases h
        exact (sp_logged_index_same s _ rfl rfl).trans hinv
      · rw [if_neg hi] at h
        cases h
        exact (sp_logged_index_same s _ rfl rfl).trans hinv
    · rw [if_neg hm] at h
      cases hl : sp_replive s.rep with
      | none => simp [hl] at h
      | some live =>
        simp only [hl] at h
        cases hw : o.logput 0 with
        | false =>
          simp only [hw, sp_logput, Bool.false_eq_true, if_false, if_true] at h
          cases h
          exact (sp_logged_index_same (sp_do_rlb o _ live (sp_filesvp live.log)).2 _ rfl rfl).trans
            (sp_do_rlb_logged o _ live _ [] hl rfl (by simp [sp_filesvp])
              ((sp_logged_index_same s _ rfl rfl).trans hinv))
        | true =>
          simp only [hw, sp_logput, if_true] at h
          rw [if_neg (by decide)] at h
          by_cases hi : o.iset 0 = false
          · rw [if_pos hi] at h
            have hr := sp_do_rlb_logged o { s with lb := [] } live
              { data := (sp_filesvp live.log).data ++
                  sp_batchadd (sp_batchadd (sp_batchadd s.lb
                    (spseg.vh (sp_vhmake o (o.crc32c (o.crc32c 0 k) v) k.length v.length op)))
                    (spseg.buf k)) (spseg.buf v),
                svp := (sp_filesvp live.log).svp } _ hl rfl rfl
              ((sp_logged_index_same s _ rfl rfl).trans hinv)
            split at h
            · cases h
              exact hr
            · cases h
              exact (sp_logged_index_same _ _ rfl rfl).trans hr
          · rw [if_neg hi] at h
            split at h
            · cases h
            · have h2 := congrArg (fun x => x.2) (Option.some.inj h)
              simp only at h2
              rw [← h2]
              have hkey : sp_logged_index
                  { s with
                    i := (sp_iset s.env.cmp s.i
                      { sp_do_version o op k v n0 with epoch := live.epoch }).1,
                    rep := sp_repput s.rep
                      { live with
                        log := { data := (sp_filesvp live.log).data ++
                                   sp_batchadd (sp_batchadd (sp_batchadd s.lb
                                     (spseg.vh (sp_vhmake o (o.crc32c (o.crc32c 0 k) v)
                                       k.length v.length op)))
                                     (spseg.buf k)) (spseg.buf v),
                                 svp := (sp_filesvp live.log).svp },
                        nupdate := live.nupdate + 1 },
                    lb := [] } = true := by
                have hn0 : n0 = { epoch := 0, crc := 0, flags := 0, key := k, value := v } := by
                  unfold sp_vnewv at hn
                  split at hn
                  · exact (Option.some.inj hn).symm
                  · cases hn
                subst hn0
                unfold sp_logged_index at hinv ⊢
                rw [List.all_eq_true] at hinv ⊢
                intro y hy
                rcases sp_isetl_mem_sub _ _ _ _ hy with hy' | hy'
                · rw [hy']
                  unfold sp_logged
                  rw [List.any_eq_true]
                  refine ⟨_, sp_repputl_mem _ s.rep.l
                    ⟨live, List.mem_of_find?_eq_some hl, sp_replive_type s.rep live hl⟩, ?_⟩
                  simp only [sp_do_version, sp_filesvp, sp_batchadd, decide_True, Bool.true_and]
                  have hsh : live.log.data ++ (((s.lb ++
                      [spseg.vh (sp_vhmake o (o.crc32c (o.crc32c 0 k) v) k.length v.length op)])
                        ++ [spseg.buf k]) ++ [spseg.buf v])
                      = (live.log.data ++ s.lb) ++
                        [spseg.vh (sp_vhmake o (o.crc32c (o.crc32c 0 k) v) k.length v.length op),
                         spseg.buf k, spseg.buf v] := by
                    simp
                  rw [hsh]
                  exact sp_logholds_record _ _ _ (by simp [sp_vhmake])
                · exact sp_logged_put s.rep live _ y hl rfl
                    (fun hh => sp_logholds_append y _ _ hh) (hinv y hy')
              split
              · exact (sp_logged_index_same _ _ rfl rfl).trans hkey
              · exact hkey

theorem sp_call_logged (o : spsys) (s : sp) (c : spcall) (r : Int × sp)
    (hc : c ≠ spcall.commit) (hinv : sp_logged_index s = true)
    (h : sp_call o s c = some r) : sp_logged_index r.2 = true := by
  have hguard : ∀ (t : spetype) (msg : String),
      sp_logged_index (sp_e s t false msg).2 = true :=
    fun t msg => (sp_logged_index_same s _ rfl rfl).trans hinv
  cases c with
  | commit => exact absurd rfl hc
  | begin =>
    have h1 : sp_begin s = r := Option.some.inj h
    rw [← h1]
    unfold sp_begin
    split
    · exact hinv
    · split
      · exact hinv
      · split
        · exact hguard _ _
        · exact (sp_logged_index_same s _ rfl rfl).trans hinv
  | rollback =>
    have h1 : sp_rollback o s = r := Option.some.inj h
    rw [← h1]
    unfold sp_rollback
    split
    · exact hinv
    · split
      · exact hguard _ _
      · split
        · exact hguard _ _
        · split
          · exact (sp_logged_index_same s _ rfl rfl).trans hinv
          · exact (sp_logged_index_same s _ rfl rfl).trans hinv
  | set k v =>
    have h1 : sp_set o s k v = some r := h
    unfold sp_set at h1
    split at h1
    · cases h1; exact hinv
    · split at h1
      · cases h1; exact hguard _ _
      · split at h1
        · cases h1; exact hguard _ _
        · split at h1
          · cases h1; exact hguard _ _
          · split at h1
            · cases h1; exact hguard _ _
            · exact sp_do_logged o s SPSET k v r hinv h1
  | delete k =>
    have h1 : sp_delete o s k = some r := h
    unfold sp_delete at h1
    split at h1
    · cases h1; exact hinv
    · split at h1
      · cases h1; exact hguard _ _
      · split at h1
        · cases h1; exact hguard _ _
        · split at h1
          · cases h1; exact hguard _ _
          · exact sp_do_logged o s SPDEL k [] r hinv h1

/-- C11: write-log-then-index holds on the single-statement path and breaks
on the commit path.  Every call of `sp_begin`, `sp_set`, `sp_delete` and
`sp_rollback`, with any outcome of its services, keeps the invariant that
each version of the memory index has its record in the log of the epoch
stamped on it.  `sp_commit` does not: on a freshly opened engine, after
`sp_begin` and `sp_set("a","1")`, a commit whose log write fails leaves the
version of "a", stamped with epoch 1, in the memory index while the log of
epoch 1 holds the log header only. -/
theorem C11_commit_indexes_before_log_write :
    (∀ (o : spsys) (s : sp) (c : spcall) (r : Int × sp), c ≠ spcall.commit →
      sp_logged_index s = true → sp_call o s c = some r → sp_logged_index r.2 = true) ∧
    sp_logged_index (sp_opened sp_env_db) = true ∧
    (sp_calls
        [(sys_ok, spcall.begin), (sys_ok, spcall.set [97] [49]),
         ({ sys_ok with logput := fun _ => false }, spcall.commit)]
        (sp_opened sp_env_db)).map
      (fun s => (sp_logged_index s, s.i.l, (sp_replive s.rep).map (fun e => e.log.data)))
      = some (false,
          [{ epoch := 1, crc := 146, flags := 1, key := [97], value := [49] }],
          some [spseg.logh]) := by
  refine ⟨sp_call_logged, by decide, by decide⟩

/-- Witness for `C11_commit_indexes_before_log_write`: a single-statement
`sp_set("a","1")` on a freshly opened engine keeps write-log-then-index. -/
theorem C11_commit_indexes_before_log_write_witness :
    spcall.set [97] [49] ≠ spcall.commit ∧ sp_logged_index (sp_opened sp_env_db) = true ∧
    ∃ r : Int × sp,
      sp_call sys_ok (sp_opened sp_env_db) (spcall.set [97] [49]) = some r ∧
      sp_logged_index r.2 = true :=
  ⟨by decide, by decide, _, rfl,
    C11_commit_indexes_before_log_write.1 sys_ok (sp_opened sp_env_db) (spcall.set [97] [49]) _
      (by decide) (by decide) rfl⟩

/-! ## Close -/

theorem sp_closestep_spec (ok : spstep → Bool) (x : spstep) (msg : String) (c : spclose) :
    (sp_closestep ok x msg c).steps = c.steps ++ [x] ∧
    (sp_closestep ok x msg c).rcret = (if ok x = false then -1 else c.rcret) ∧
    (sp_closestep ok x msg c).s.rep = c.s.rep ∧ (sp_closestep ok x msg c).s.env = c.s.env := by
  unfold sp_closestep
  cases h : ok x <;> simp [sp_e]

theorem sp_closerep_epoch_spec (ok : spstep → Bool) (e : spepoch) (c : spclose) :
    (sp_closerep_epoch ok e c).steps = c.steps ++ sp_closesteps e ∧
    (sp_closerep_epoch ok e c).rcret
      = (if (sp_closesteps e).any (fun x => !ok x) = true then -1 else c.rcret) ∧
    (sp_closerep_epoch ok e c).s.rep = c.s.rep ∧ (sp_closerep_epoch ok e c).s.env = c.s.env := by
  unfold sp_closerep_epoch sp_closesteps sp_closerep_xfer
  cases ht : e.type with
  | SPUNDEF => simp
  | SPLIVE =>
    by_cases hn : e.nupdate = 0
    · simp only [hn, if_true]
      simp only [sp_closestep_spec, List.append_assoc, List.singleton_append, List.any_cons,
        List.any_nil, Bool.or_false, true_and, and_self, and_true]
      cases ok (spstep.unlink e.epoch) <;> cases ok (spstep.close e.epoch) <;> simp
    · simp only [hn, if_false]
      simp only [sp_closestep_spec, List.append_assoc, List.singleton_append, List.any_cons,
        List.any_nil, Bool.or_false, true_and, and_self, and_true]
      cases ok (spstep.eof e.epoch) <;> cases ok (spstep.complete e.epoch) <;>
        cases ok (spstep.close e.epoch) <;> simp
  | SPXFER =>
    simp only [sp_closestep_spec, List.append_assoc, List.singleton_append, List.any_cons,
      List.any_nil, Bool.or_false, true_and, and_self, and_true]
    cases ok (spstep.complete e.epoch) <;> cases ok (spstep.close e.epoch) <;> simp
  | SPDB =>
    simp only [sp_closestep_spec, List.any_cons, List.any_nil, Bool.or_false, true_and,
      and_self, and_true]
    cases ok (spstep.mapclose e.epoch) <;> simp

theorem sp_closerepl_spec (ok : Nat → spstep → Bool) (es : List spepoch) :
    ∀ (j : Nat) (c : spclose),
      (sp_closerepl ok es j c).steps = c.steps ++ sp_closeplan es ∧
      (sp_closerepl ok es j c).rcret
        = (if sp_closefails ok es j = true then -1 else c.rcret) ∧
      (sp_closerepl ok es j c).s.rep = c.s.rep ∧ (sp_closerepl ok es j c).s.env = c.s.env := by
  induction es with
  | nil =>
    intro j c
    simp [sp_closerepl, sp_closeplan, sp_closefails]
  | cons e es ih =>
    intro j c
    obtain ⟨h1, h2, h3, h4⟩ := sp_closerep_epoch_spec (ok j) e c
    obtain ⟨g1, g2, g3, g4⟩ := ih (j + 1)
      { sp_closerep_epoch (ok j) e c with
        steps := (sp_closerep_epoch (ok j) e c).steps ++ [spstep.free e.epoch] }
    unfold sp_closerepl
    refine ⟨?_, ?_, g3.trans h3, g4.trans h4⟩
    · rw [g1]
      simp only [h1, sp_closeplan, List.append_assoc]
    · rw [g2]
      simp only [h2, sp_closefails, Bool.or_eq_true]
      by_cases ha : (sp_closesteps e).any (fun x => !ok j x) = true
      · simp [ha]
      · simp [ha]

/-- C12: for every repository and every outcome of the cleanup steps,
`sp_closerep` visits every epoch exactly once, in list order, and performs
for it exactly the steps of its type: unlink and close for a live epoch
with `nupdate = 0`; EOF marker, complete and close for a live epoch with
updates; complete and close, without EOF marker, for an epoch in transfer;
the unmapping of the db file for a db epoch; nothing for an undefined epoch;
and it releases every epoch. -/
theorem C12_closerep_steps_by_type (ok : Nat → spstep → Bool) (s : sp) :
    (sp_closerep ok s).steps = sp_closeplan s.rep.l ∧ (sp_closerep ok s).s.rep.l = [] ∧
    (∀ e : spepoch, e.type = SPLIVE → e.nupdate = 0 →
      sp_closesteps e = [spstep.unlink e.epoch, spstep.close e.epoch]) ∧
    (∀ e : spepoch, e.type = SPLIVE → e.nupdate ≠ 0 →
      sp_closesteps e = [spstep.eof e.epoch, spstep.complete e.epoch, spstep.close e.epoch]) ∧
    (∀ e : spepoch, e.type = SPXFER →
      sp_closesteps e = [spstep.complete e.epoch, spstep.close e.epoch]) ∧
    (∀ e : spepoch, e.type = SPDB → sp_closesteps e = [spstep.mapclose e.epoch]) ∧
    (∀ e : spepoch, e.type = SPUNDEF → sp_closesteps e = []) := by
  refine ⟨?_, rfl, ?_, ?_, ?_, ?_, ?_⟩
  · have h := (sp_closerepl_spec ok s.rep.l 0 { rcret := 0, steps := [], s := s }).1
    simpa [sp_closerep] using h
  · intro e ht hn
    simp [sp_closesteps, ht, hn]
  · intro e ht hn
    simp [sp_closesteps, ht, hn]
  · intro e ht
    simp [sp_closesteps, ht]
  · intro e ht
    simp [sp_closesteps, ht]
  · intro e ht
    simp [sp_closesteps, ht]

/-- Witness for `C12_closerep_steps_by_type`: the steps of an empty live
epoch, and the cleanup of a freshly opened engine after one write, whose
live epoch 1 has one update. -/
theorem C12_closerep_steps_by_type_witness :
    ({ epoch := 7, type := SPLIVE, nupdate := 0, log := { data := [], svp := 0 } } : spepoch).type
      = SPLIVE ∧
    sp_closesteps { epoch := 7, type := SPLIVE, nupdate := 0, log := { data := [], svp := 0 } }
      = [spstep.unlink 7, spstep.close 7] ∧
    (sp_closerep (fun _ _ => true)
        { sp_opened sp_env_db with
          rep := { l := [{ epoch := 1, type := SPLIVE, nupdate := 1,
                           log := { data := [spseg.logh], svp := 0 } }],
                   epoch := 1, n := 1, ndb := 0, nxfer := 0 } }).steps
      = [spstep.eof 1, spstep.complete 1, spstep.close 1, spstep.free 1] :=
  ⟨rfl,
    (C12_closerep_steps_by_type (fun _ _ => true) (sp_opened sp_env_db)).2.2.1 _ rfl rfl,
    (C12_closerep_steps_by_type (fun _ _ => true)
      { sp_opened sp_env_db with
        rep := { l := [{ epoch := 1, type := SPLIVE, nupdate := 1,
                         log := { data := [spseg.logh], svp := 0 } }],
                 epoch := 1, n := 1, ndb := 0, nxfer := 0 } }).1⟩

theorem sp_closerep_rcret (ok : Nat → spstep → Bool) (s : sp) :
    (sp_closerep ok s).rcret = (if sp_closefails ok s.rep.l 0 = true then -1 else 0) ∧
    (sp_closerep ok s).s.env = s.env := by
  have h := sp_closerepl_spec ok s.rep.l 0 { rcret := 0, steps := [], s := s }
  exact ⟨by simpa [sp_closerep] using h.2.1, by simpa [sp_closerep] using h.2.2.2⟩

/-- C13: for every repository and every assignment of outcomes to the
cleanup steps, `sp_closerep` performs the same sequence of steps as when all
steps succeed, and it returns `-1` if and only if at least one of these
steps failed, `0` otherwise; `sp_close` returns `-1` if and only if stopping
the merger (attempted when merging is enabled), `sp_closerep` or releasing
the directory lock failed, `0` otherwise, and it always ends with
`env.inuse = 0`. -/
theorem C13_close_aggregates_errors (o : spcloseo) (s : sp) :
    (sp_closerep o.step s).steps = (sp_closerep (fun _ _ => true) s).steps ∧
    ((sp_closerep o.step s).rcret = -1 ↔ sp_closefails o.step s.rep.l 0 = true) ∧
    ((sp_closerep o.step s).rcret = -1 ∨ (sp_closerep o.step s).rcret = 0) ∧
    (sp_close o s).steps = (sp_closerep (fun _ _ => true) s).steps ∧
    ((sp_close o s).rcret = -1 ↔
      ((s.env.merge ≠ 0 ∧ o.taskstop = false) ∨ (sp_closerep o.step s).rcret = -1 ∨
        o.unlock = false)) ∧
    ((sp_close o s).rcret = -1 ∨ (sp_close o s).rcret = 0) ∧
    (sp_close o s).s.env.inuse = false := by
  have hsteps : ∀ (ok : Nat → spstep → Bool) (t : sp), t.rep = s.rep →
      (sp_closerep ok t).steps = sp_closeplan s.rep.l := by
    intro ok t ht
    have h := (sp_closerepl_spec ok t.rep.l 0 { rcret := 0, steps := [], s := t }).1
    rw [← ht]
    simpa [sp_closerep] using h
  have hrc : ∀ t : sp, t.rep = s.rep →
      (sp_closerep o.step t).rcret = (if sp_closefails o.step s.rep.l 0 = true then -1 else 0) := by
    intro t ht
    rw [(sp_closerep_rcret o.step t).1, ht]
  obtain ⟨r1, hr1⟩ : ∃ r : Int × sp, r =
      (if ({ s with stop := true } : sp).env.merge ≠ 0 ∧ o.taskstop = false then
        sp_e { s with stop := true } SPESYS false "failed to stop merger thread"
      else (0, { s with stop := true })) := ⟨_, rfl⟩
  have hr1rep : r1.2.rep = s.rep := by
    rw [hr1]; split <;> rfl
  have hr1rc : r1.1 = (if s.env.merge ≠ 0 ∧ o.taskstop = false then -1 else 0) := by
    rw [hr1]
    by_cases hc : s.env.merge ≠ 0 ∧ o.taskstop = false
    · rw [if_pos hc, if_pos hc]; rfl
    · rw [if_neg hc, if_neg hc]
  have hclose : (sp_close o s).rcret =
      (if o.unlock = false then -1
       else if (sp_closerep o.step r1.2).rcret = -1 then -1 else r1.1) ∧
      (sp_close o s).steps = (sp_closerep o.step r1.2).steps := by
    rw [hr1]
    exact ⟨rfl, rfl⟩
  refine ⟨?_, ?_, ?_, ?_, ?_, ?_, rfl⟩
  · rw [hsteps o.step s rfl, hsteps (fun _ _ => true) s rfl]
  · rw [hrc s rfl]
    by_cases hf : sp_closefails o.step s.rep.l 0 = true <;> simp [hf]
  · rw [hrc s rfl]
    by_cases hf : sp_closefails o.step s.rep.l 0 = true <;> simp [hf]
  · rw [hclose.2, hsteps o.step r1.2 hr1rep, hsteps (fun _ _ => true) s rfl]
  · rw [hclose.1, hrc r1.2 hr1rep, hrc s rfl, hr1rc]
    by_cases hu : o.unlock = false <;>
      by_cases hf : sp_closefails o.step s.rep.l 0 = true <;>
      by_cases hm : s.env.merge ≠ 0 ∧ o.taskstop = false <;> simp [hu, hf, hm]
  · rw [hclose.1, hrc r1.2 hr1rep, hr1rc]
    by_cases hu : o.unlock = false <;>
      by_cases hf : sp_closefails o.step s.rep.l 0 = true <;>
      by_cases hm : s.env.merge ≠ 0 ∧ o.taskstop = false <;> simp [hu, hf, hm]

/-! ## Rotation -/

theorem sp_rotate_spec (o : sprotateo) (s : sp) (err : spe) :
    (o.repalloc = true → (o.freed = true ∨ (o.lognew = true ∧ o.logwrite = true)) →
      ∃ r : Int × sp × spe, sp_rotate o s err = some r) ∧
    (∀ r : Int × sp × spe, sp_rotate o s err = some r →
      r.2.1.rep.epoch = s.rep.epoch + 1 ∧ (r.1 = 0 ∨ r.1 = -1) ∧
      (r.1 = 0 →
        r.2.1.rep.l = s.rep.l ++
          [{ epoch := s.rep.epoch + 1, type := SPLIVE, nupdate := 0,
             log := { data := [spseg.logh], svp := 0 } }]) ∧
      (r.1 ≠ 0 → r.2.1.rep.l = s.rep.l)) := by
  constructor
  · intro ha hfr
    unfold sp_rotate
    simp only [ha, Bool.true_eq_false, if_false]
    cases hn : o.lognew with
    | false =>
      have hf : o.freed = true := by
        rcases hfr with hf | hf
        · exact hf
        · rw [hn] at hf; exact absurd hf.1 (by decide)
      simp only [hf, Bool.true_eq_false, if_true, if_false]
      exact ⟨_, rfl⟩
    | true =>
      cases hw : o.logwrite with
      | false =>
        have hf : o.freed = true := by
          rcases hfr with hf | hf
          · exact hf
          · rw [hw] at hf; exact absurd hf.2 (by decide)
        simp only [hf, Bool.true_eq_false, if_true, if_false]
        exact ⟨_, rfl⟩
      | true =>
        simp only [Bool.true_eq_false, if_false]
        exact ⟨_, rfl⟩
  · intro r h
    unfold sp_rotate at h
    simp only [] at h
    split at h
    · cases h
    · split at h
      · split at h
        · cases h
        · cases h
          exact ⟨rfl, Or.inr rfl, fun hc => absurd (show (-1 : Int) = 0 from hc) (by decide),
            fun _ => rfl⟩
      · split at h
        · split at h
          · cases h
          · cases h
            exact ⟨rfl, Or.inr rfl,
              fun hc => absurd (show (-1 : Int) = 0 from hc) (by decide), fun _ => rfl⟩
        · cases h
          exact ⟨rfl, Or.inl rfl, fun _ => rfl, fun hc => absurd rfl hc⟩

theorem sp_rotates_spec (os : List sprotateo) :
    ∀ s s' : sp, sp_rotates os s = some s' →
      ∃ new : List spepoch, s'.rep.l = s.rep.l ++ new ∧
        s'.rep.epoch = s.rep.epoch + os.length ∧
        (∀ e ∈ new, s.rep.epoch < e.epoch ∧ e.epoch ≤ s'.rep.epoch ∧ e.type = SPLIVE) ∧
        new.Pairwise (fun a b => a.epoch < b.epoch) := by
  induction os with
  | nil =>
    intro s s' h
    simp only [sp_rotates, Option.some.injEq] at h
    subst h
    exact ⟨[], by simp, by simp, by simp, List.Pairwise.nil⟩
  | cons o os ih =>
    intro s s' h
    unfold sp_rotates at h
    cases hr : sp_rotate o s s.e with
    | none => simp [hr] at h
    | some r =>
      simp only [hr] at h
      obtain ⟨h1, h2, h3, h4⟩ := (sp_rotate_spec o s s.e).2 r hr
      obtain ⟨new1, g1, g2, g3, g4⟩ := ih { r.2.1 with e := r.2.2 } s' h
      have g1' : s'.rep.l = r.2.1.rep.l ++ new1 := g1
      have g2' : s'.rep.epoch = r.2.1.rep.epoch + os.length := g2
      have g3' : ∀ e ∈ new1, r.2.1.rep.epoch < e.epoch ∧ e.epoch ≤ s'.rep.epoch ∧
          e.type = SPLIVE := g3
      have hep : s'.rep.epoch = s.rep.epoch + (o :: os).length := by
        rw [g2', h1, List.length_cons]; omega
      by_cases h0 : r.1 = 0
      · refine ⟨{ epoch := s.rep.epoch + 1, type := SPLIVE, nupdate := 0,
                  log := { data := [spseg.logh], svp := 0 } } :: new1, ?_, hep, ?_, ?_⟩
        · rw [g1', h3 h0]; simp
        · intro e he
          rcases List.mem_cons.1 he with rfl | he'
          · refine ⟨Nat.lt_succ_self _, ?_, rfl⟩
            show s.rep.epoch + 1 ≤ s'.rep.epoch
            rw [g2', h1]; omega
          · have := g3' e he'
            refine ⟨?_, this.2.1, this.2.2⟩
            rw [h1] at this; omega
        · refine List.Pairwise.cons ?_ g4
          intro b hb
          have := (g3' b hb).1
          rw [h1] at this
          exact this
      · refine ⟨new1, ?_, hep, ?_, g4⟩
        · rw [g1', h4 h0]
        · intro e he
          have := g3' e he
          refine ⟨?_, this.2.1, this.2.2⟩
          rw [h1] at this; omega

/-- C14: `sp_rotate` does not survive a failed allocation of the epoch.  When
`sp_repalloc` fails, the check of sp.c:170 tests the engine instead of the
epoch, the null epoch is used and the call has no result, so it neither
increments the counter and returns nor leaves the engine to a later
rotation.  Every call that returns increments the repository epoch counter
by exactly one; on success it attaches one new epoch, whose id is the new
counter value and which is `LIVE`, and on failure it attaches nothing; a
call returns when the epoch is allocated and, on the failure exits, the read
of the released epoch has an outcome.  Hence in every sequence of rotations
of one engine that return, failed ones included, the epochs created have
strictly increasing ids; and if all epochs of the repository had ids `<=`
the counter and none was `LIVE` before a successful call, then after it
exactly one epoch is `LIVE` and it has the largest id. -/
theorem C14_rotate_failed_alloc_has_no_result (o : sprotateo) (s : sp) (err : spe) :
    (o.repalloc = false → sp_rotate o s err = none) ∧
    (o.repalloc = true → (o.freed = true ∨ (o.lognew = true ∧ o.logwrite = true)) →
      ∃ r : Int × sp × spe, sp_rotate o s err = some r) ∧
    (∀ r : Int × sp × spe, sp_rotate o s err = some r →
      r.2.1.rep.epoch = s.rep.epoch + 1 ∧
      (r.1 = 0 → ∃ e' : spepoch, r.2.1.rep.l = s.rep.l ++ [e'] ∧
        e'.epoch = r.2.1.rep.epoch ∧ e'.type = SPLIVE) ∧
      (r.1 ≠ 0 → r.2.1.rep.l = s.rep.l) ∧
      (r.1 = 0 → (∀ e ∈ s.rep.l, e.epoch ≤ s.rep.epoch ∧ e.type ≠ SPLIVE) →
        ∃ e' : spepoch, sp_lives r.2.1.rep.l = [e'] ∧ e'.epoch = r.2.1.rep.epoch ∧
          ∀ e ∈ r.2.1.rep.l, e = e' ∨ e.epoch < e'.epoch)) ∧
    (∀ (os : List sprotateo) (s' : sp), sp_rotates os s = some s' →
      ∃ new : List spepoch, s'.rep.l = s.rep.l ++ new ∧
        s'.rep.epoch = s.rep.epoch + os.length ∧
        (∀ e ∈ new, s.rep.epoch < e.epoch ∧ e.epoch ≤ s'.rep.epoch ∧ e.type = SPLIVE) ∧
        new.Pairwise (fun a b => a.epoch < b.epoch)) := by
  refine ⟨?_, (sp_rotate_spec o s err).1, ?_, fun os s' h => sp_rotates_spec os s s' h⟩
  · intro ha
    unfold sp_rotate
    simp only [ha, if_true]
  intro r h
  obtain ⟨h1, -, h3, h4⟩ := (sp_rotate_spec o s err).2 r h
  refine ⟨h1, ?_, h4, ?_⟩
  · intro h0
    exact ⟨_, h3 h0, by rw [h1], rfl⟩
  · intro h0 hall
    refine ⟨{ epoch := s.rep.epoch + 1, type := SPLIVE, nupdate := 0,
              log := { data := [spseg.logh], svp := 0 } }, ?_, by rw [h1], ?_⟩
    · rw [h3 h0]
      unfold sp_lives
      rw [List.filter_append]
      have hnone : s.rep.l.filter (fun e => decide (e.type = SPLIVE)) = [] := by
        rw [List.filter_eq_nil_iff]
        intro e he
        simpa using (hall e he).2
      rw [hnone]
      rfl
    · intro e he
      rw [h3 h0] at he
      rcases List.mem_append.1 he with he' | he'
      · right
        have := (hall e he').1
        show e.epoch < s.rep.epoch + 1
        omega
      · left
        simpa using he'

/-- Witness for `C14_rotate_failed_alloc_has_no_result`: the first rotation
of an engine whose repository is still empty, as `sp_open` calls it, has no
result when the allocation of the epoch fails; when every service succeeds
it makes epoch 1 the one `LIVE` epoch. -/
theorem C14_rotate_failed_alloc_has_no_result_witness :
    sp_rotate { repalloc := false, lognew := true, logwrite := true, freed := true }
      (sp_open_init sp_env_db) sp_einit = none ∧
    ∃ r : Int × sp × spe,
      sp_rotate { repalloc := true, lognew := true, logwrite := true, freed := true }
        (sp_open_init sp_env_db) sp_einit = some r ∧
      r.1 = 0 ∧ r.2.1.rep.epoch = 0 + 1 ∧
      ∃ e' : spepoch, sp_lives r.2.1.rep.l = [e'] ∧ e'.epoch = r.2.1.rep.epoch ∧
        ∀ e ∈ r.2.1.rep.l, e = e' ∨ e.epoch < e'.epoch :=
  ⟨(C14_rotate_failed_alloc_has_no_result
      { repalloc := false, lognew := true, logwrite := true, freed := true }
      (sp_open_init sp_env_db) sp_einit).1 rfl,
   _, rfl, rfl,
    ((C14_rotate_failed_alloc_has_no_result
      { repalloc := true, lognew := true, logwrite := true, freed := true }
      (sp_open_init sp_env_db) sp_einit).2.2.1 _ rfl).1,
    ((C14_rotate_failed_alloc_has_no_result
      { repalloc := true, lognew := true, logwrite := true, freed := true }
      (sp_open_init sp_env_db) sp_einit).2.2.1 _ rfl).2.2.2 rfl (by simp [sp_open_init, sp_repinit])⟩

/-! ## Read-only engines -/

theorem sp_call_rdonly (o : spsys) (s : sp) (c : spcall) (hro : sp_rdonly s.env = true)
    (hi : s.itxn.l = []) :
    ∃ r : Int × sp, sp_call o s c = some r ∧ r.2.i = s.i ∧ r.2.rep = s.rep ∧
      r.2.env = s.env ∧ r.2.itxn.l = [] ∧ r.2.lockc = s.lockc := by
  have hcount : s.itxn.count = 0 := by simp [spi.count, hi]
  cases c with
  | begin =>
    show ∃ r : Int × sp, some (sp_begin s) = some r ∧ _
    refine ⟨_, rfl, ?_⟩
    unfold sp_begin
    split
    · exact ⟨rfl, rfl, rfl, hi, rfl⟩
    · split
      · exact ⟨rfl, rfl, rfl, hi, rfl⟩
      · split
        · exact ⟨rfl, rfl, rfl, hi, rfl⟩
        · exact ⟨rfl, rfl, rfl, hi, rfl⟩
  | rollback =>
    show ∃ r : Int × sp, some (sp_rollback o s) = some r ∧ _
    refine ⟨_, rfl, ?_⟩
    unfold sp_rollback
    split
    · exact ⟨rfl, rfl, rfl, hi, rfl⟩
    · split
      · exact ⟨rfl, rfl, rfl, hi, rfl⟩
      · split
        · exact ⟨rfl, rfl, rfl, hi, rfl⟩
        · split
          · exact ⟨rfl, rfl, rfl, rfl, rfl⟩
          · exact ⟨rfl, rfl, rfl, rfl, rfl⟩
  | set k v =>
    show ∃ r : Int × sp, sp_set o s k v = some r ∧ _
    unfold sp_set
    split
    · exact ⟨_, rfl, rfl, rfl, rfl, hi, rfl⟩
    · exact ⟨_, rfl, rfl, rfl, rfl, hi, rfl⟩
  | delete k =>
    show ∃ r : Int × sp, sp_delete o s k = some r ∧ _
    unfold sp_delete
    split
    · exact ⟨_, rfl, rfl, rfl, rfl, hi, rfl⟩
    · exact ⟨_, rfl, rfl, rfl, rfl, hi, rfl⟩
  | commit =>
    show ∃ r : Int × sp, sp_commit o s = some r ∧ _
    unfold sp_commit
    split
    · exact ⟨_, rfl, rfl, rfl, rfl, hi, rfl⟩
    · split
      · exact ⟨_, rfl, rfl, rfl, rfl, hi, rfl⟩
      · split
        · exact ⟨_, rfl, rfl, rfl, rfl, hi, rfl⟩
        · exact ⟨_, rfl, rfl, rfl, rfl, hi, rfl⟩

theorem sp_calls_rdonly (cs : List (spsys × spcall)) :
    ∀ s : sp, sp_rdonly s.env = true → s.itxn.l = [] →
      ∃ s' : sp, sp_calls cs s = some s' ∧ s'.i = s.i ∧ s'.rep = s.rep ∧ s'.env = s.env ∧
        s'.itxn.l = [] ∧ s'.lockc = s.lockc := by
  induction cs with
  | nil =>
    intro s _ hi
    exact ⟨s, rfl, rfl, rfl, rfl, hi, rfl⟩
  | cons oc cs ih =>
    intro s hro hi
    obtain ⟨o, c⟩ := oc
    obtain ⟨r, hr, h1, h2, h3, h4, h5⟩ := sp_call_rdonly o s c hro hi
    obtain ⟨s', hs', g1, g2, g3, g4, g5⟩ := ih r.2 (by rw [h3]; exact hro) h4
    refine ⟨s', ?_, g1.trans h1, g2.trans h2, g3.trans h3, g4, g5.trans h5⟩
    simp only [sp_calls, hr]
    exact hs'

/-- C15: for an engine whose environment has the `RDONLY` flag, every
`sp_set` and `sp_delete` returns `-1` for every argument and changes neither
index nor the repository; when the staging index is empty, every sequence of
`sp_begin`, `sp_set`, `sp_delete`, `sp_commit` and `sp_rollback` calls runs
to its end with `itxn` still empty and `i` and the repository unchanged, and
`sp_commit` always returns before the path that fetches the live epoch: it
has a result also without any `LIVE` epoch, and when it returns `0` it has
taken the empty-transaction return, which changes only `txn`.  And `sp_open`
does not rotate in read-only mode: the repository of the engine it returns
is the one recovery left. -/
theorem C15_rdonly_never_writes (s : sp) (hro : sp_rdonly s.env = true) :
    (∀ (o : spsys) (k v : Bytes), ∃ s' : sp, sp_set o s k v = some (-1, s') ∧
      s'.i = s.i ∧ s'.itxn = s.itxn ∧ s'.rep = s.rep) ∧
    (∀ (o : spsys) (k : Bytes), ∃ s' : sp, sp_delete o s k = some (-1, s') ∧
      s'.i = s.i ∧ s'.itxn = s.itxn ∧ s'.rep = s.rep) ∧
    (s.itxn.l = [] → ∀ cs : List (spsys × spcall), ∃ s' : sp, sp_calls cs s = some s' ∧
      s'.itxn.l = [] ∧ s'.i = s.i ∧ s'.rep = s.rep) ∧
    (s.itxn.l = [] → ∀ o : spsys, ∃ r : Int × sp, sp_commit o s = some r ∧
      r.2.i = s.i ∧ r.2.rep = s.rep ∧ r.2.itxn.l = [] ∧ (r.1 = 0 ∨ r.1 = -1) ∧
      (r.1 = 0 → r.2 = { s with txn := SPTSS })) ∧
    (∀ (o : spopeno) (env : spenv), sp_rdonly (o.recover (sp_open_init env)).2.env = true →
      ∃ r : Option sp × spenv, sp_open o env = some r ∧
        ∀ t : sp, r.1 = some t → t.rep = (o.recover (sp_open_init env)).2.rep) := by
  refine ⟨?_, ?_, ?_, ?_, ?_⟩
  · intro o k v
    unfold sp_set
    split
    · exact ⟨s, rfl, rfl, rfl, rfl⟩
    · exact ⟨_, rfl, rfl, rfl, rfl⟩
  · intro o k
    unfold sp_delete
    split
    · exact ⟨s, rfl, rfl, rfl, rfl⟩
    · exact ⟨_, rfl, rfl, rfl, rfl⟩
  · intro hi cs
    obtain ⟨s', h, g1, g2, -, g4, -⟩ := sp_calls_rdonly cs s hro hi
    exact ⟨s', h, g4, g1, g2⟩
  · intro hi o
    have hcount : s.itxn.count = 0 := by simp [spi.count, hi]
    unfold sp_commit
    split
    · exact ⟨_, rfl, rfl, rfl, hi, Or.inr rfl,
        fun hc => absurd (show (-1 : Int) = 0 from hc) (by decide)⟩
    · split
      · exact ⟨_, rfl, rfl, rfl, hi, Or.inr rfl,
          fun hc => absurd (show (-1 : Int) = 0 from hc) (by decide)⟩
      · split
        · exact ⟨_, rfl, rfl, rfl, hi, Or.inr rfl,
            fun hc => absurd (show (-1 : Int) = 0 from hc) (by decide)⟩
        · exact ⟨_, rfl, rfl, rfl, hi, Or.inl rfl, fun _ => rfl⟩
  · intro o env hre
    have hfin : ∀ t0 : sp, ∀ t : sp, (sp_open_finish o env t0).1 = some t → t.rep = t0.rep := by
      intro t0 t ht
      unfold sp_open_finish at ht
      simp only [] at ht
      split at ht
      · cases ht
      · split at ht
        · split at ht
          · cases ht
          · cases ht; rfl
        · cases ht; rfl
    unfold sp_open
    split
    · exact ⟨_, rfl, fun t ht => by cases ht⟩
    · split
      · exact ⟨_, rfl, fun t ht => by cases ht⟩
      · simp only []
        split
        · exact ⟨_, rfl, fun t ht => by cases ht⟩
        · split
          · exact ⟨_, rfl, fun t ht => by cases ht⟩
          · split
            · exact ⟨_, rfl, fun t ht => by cases ht⟩
            · split
              · exact ⟨_, rfl, fun t ht => by cases ht⟩
              · split
                · exact ⟨_, rfl, fun t ht => by cases ht⟩
                · exact ⟨_, rfl, fun t ht => hfin _ t ht⟩

/-- Witness for `C15_rdonly_never_writes`: a read-only engine without any
epoch runs a transaction with a write and a commit to its end with nothing
staged and nothing changed. -/
theorem C15_rdonly_never_writes_witness :
    sp_rdonly sp_opened_ro.env = true ∧ sp_opened_ro.itxn.l = [] ∧
    sp_lives sp_opened_ro.rep.l = [] ∧
    ∃ s' : sp,
      sp_calls [(sys_ok, spcall.begin), (sys_ok, spcall.set [97] [49]), (sys_ok, spcall.commit)]
        sp_opened_ro = some s' ∧
      s'.itxn.l = [] ∧ s'.i = sp_opened_ro.i ∧ s'.rep = sp_opened_ro.rep :=
  ⟨by decide, rfl, rfl,
    (C15_rdonly_never_writes sp_opened_ro (by decide)).2.2.1 rfl
      [(sys_ok, spcall.begin), (sys_ok, spcall.set [97] [49]), (sys_ok, spcall.commit)]⟩

/-! ## Environments in use -/

/-- C16: for every environment with `inuse` set, whatever its options,
`sp_envvalidate` returns `-1` and `sp_open` returns null, and both leave the
environment error slot and every other field of the environment exactly as
before, so an `error()` query that returned null before still returns
null. -/
theorem C16_inuse_rejected_silently (env : spenv) (h : env.inuse = true) :
    sp_envvalidate env = (-1, env) ∧
    (∀ o : spopeno, sp_open o env = some (none, env)) ∧
    sp_error_env (sp_envvalidate env).2 = sp_error_env env ∧
    (sp_error_env env = none →
      ∀ (o : spopeno) (r : Option sp × spenv), sp_open o env = some r →
        r.1 = none ∧ sp_error_env r.2 = none) := by
  have hv : sp_envvalidate env = (-1, env) := by
    unfold sp_envvalidate
    rw [if_pos h]
  have ho : ∀ o : spopeno, sp_open o env = some (none, env) := by
    intro o
    unfold sp_open
    rw [hv, if_pos rfl]
  refine ⟨hv, ho, by rw [hv], ?_⟩
  intro he o r hr
  rw [ho o] at hr
  cases hr
  exact ⟨rfl, he⟩

/-- Witness for `C16_inuse_rejected_silently`: the environment of a freshly
opened engine is in use and has a clean error slot; validating it again
fails and leaves it as it is. -/
theorem C16_inuse_rejected_silently_witness :
    (sp_opened sp_env_db).env.inuse = true ∧
    sp_error_env (sp_opened sp_env_db).env = none ∧
    sp_envvalidate (sp_opened sp_env_db).env = (-1, (sp_opened sp_env_db).env) :=
  ⟨rfl, by decide, (C16_inuse_rejected_silently (sp_opened sp_env_db).env rfl).1⟩

/-- C17 as stated fails: `sp_ctlenv` on an environment in use whose error
slot is empty returns `-1` but records the error "can't change env opts
while in-use", so the error slot is not as before and an `error()` query
that returned null now returns that message. -/
theorem C17_counterexample_error_slot_changes :
    (sp_opened sp_env_db).env.inuse = true ∧
    sp_error_env (sp_opened sp_env_db).env = none ∧
    (sp_ctlenv true (sp_opened sp_env_db).env (spopt.SPPAGE 4096)).1 = -1 ∧
    (sp_ctlenv true (sp_opened sp_env_db).env (spopt.SPPAGE 4096)).2.e
      ≠ (sp_opened sp_env_db).env.e ∧
    sp_error_env (sp_ctlenv true (sp_opened sp_env_db).env (spopt.SPPAGE 4096)).2
      = some "can't change env opts while in-use" := by
  decide

/-- C17, amended: for every environment with `inuse` set, every option and
every argument list, `sp_ctlenv` returns `-1` and leaves every field of the
environment other than the error slot (`dir`, `flags`, allocator,
comparator, `page`, `gc`, `gcfactor`, `dbnewsize`, `dbgrow`, `merge`,
`mergewm`, `inuse`) identical; the error slot is left as it was when it
already held an error, and otherwise takes the error "can't change env opts
while in-use". -/
theorem C17_ctlenv_inuse (strdup : Bool) (env : spenv) (opt : spopt) (h : env.inuse = true) :
    sp_ctlenv strdup env opt
      = (-1, { env with e := sp_ve env.e SPEOOM false "can't change env opts while in-use" }) ∧
    (sp_eis env.e = true → sp_ctlenv strdup env opt = (-1, env)) ∧
    (sp_eis env.e = false →
      (sp_ctlenv strdup env opt).2.e
        = { type := SPEOOM, fatal := false, e := "can't change env opts while in-use" }) := by
  have hc : sp_ctlenv strdup env opt
      = (-1, { env with e := sp_ve env.e SPEOOM false "can't change env opts while in-use" }) := by
    unfold sp_ctlenv
    rw [if_pos h]
    rfl
  refine ⟨hc, ?_, ?_⟩
  · intro he
    rw [hc, sp_ve_of_error _ _ _ _ he]
  · intro he
    rw [hc]
    exact sp_ve_of_empty _ _ _ _ he

/-- Witness for `C17_ctlenv_inuse`: changing the page size of the environment
of a freshly opened engine fails and changes only the error slot. -/
theorem C17_ctlenv_inuse_witness :
    (sp_opened sp_env_db).env.inuse = true ∧
    sp_ctlenv true (sp_opened sp_env_db).env (spopt.SPPAGE 4096)
      = (-1, { (sp_opened sp_env_db).env with
               e := sp_ve (sp_opened sp_env_db).env.e SPEOOM false
                      "can't change env opts while in-use" }) :=
  ⟨rfl, (C17_ctlenv_inuse true (sp_opened sp_env_db).env (spopt.SPPAGE 4096) rfl).1⟩

/-! ## The watermark -/

theorem sp_isetl_length (cmp : Bytes → Bytes → Int) (l : List spv) (v : spv) :
    (sp_isetl cmp l v).1.length ≤ l.length + 1 := by
  induction l with
  | nil => simp [sp_isetl]
  | cons x xs ih =>
    unfold sp_isetl
    split
    · simp
    · split
      · simp
      · simp only [List.length_cons]
        omega

theorem sp_do_rlb_rep (o : spsys) (s : sp) (live : spepoch) (lg : spfile) :
    (sp_do_rlb o s live lg).2.rep
      = sp_repput s.rep { live with log := (sp_logrlb o.logrlb lg).2 } ∧
    (sp_do_rlb o s live lg).2.wakeups = s.wakeups := by
  unfold sp_do_rlb
  by_cases hc : (sp_logrlb o.logrlb lg).1 = -1 <;> simp [hc]

/-- The single record write outside a transaction, counted: it either leaves
the memory index, `nupdate` and the merger alone, or it adds at most one
version to the index and one to `nupdate`, and it wakes the merger only when
the new `nupdate` is a multiple of the watermark. -/
theorem sp_do_count (o : spsys) (s : sp) (op : Nat) (k v : Bytes) (r : Int × sp)
    (live : spepoch) (ht : s.txn = SPTSS) (hl : sp_replive s.rep = some live)
    (h : sp_do o s op k v = some r) :
    r.2.txn = SPTSS ∧ r.2.env = s.env ∧
    ∃ live' : spepoch, sp_replive r.2.rep = some live' ∧
      ((r.2.i = s.i ∧ live'.nupdate = live.nupdate ∧ r.2.wakeups = s.wakeups) ∨
       (r.2.i.count ≤ s.i.count + 1 ∧ live'.nupdate = live.nupdate + 1 ∧
        (r.2.wakeups > s.wakeups → live'.nupdate % s.env.mergewm = 0))) := by
  have htype := sp_replive_type s.rep live hl
  have hrlb : ∀ (b : List spseg) (lg : spfile),
      (sp_do_rlb o { s with lb := b } live lg).2.txn = SPTSS ∧
      (sp_do_rlb o { s with lb := b } live lg).2.env = s.env ∧
      ∃ live' : spepoch, sp_replive (sp_do_rlb o { s with lb := b } live lg).2.rep = some live' ∧
        ((sp_do_rlb o { s with lb := b } live lg).2.i = s.i ∧ live'.nupdate = live.nupdate ∧
          (sp_do_rlb o { s with lb := b } live lg).2.wakeups = s.wakeups) := by
    intro b lg
    have hf := sp_do_rlb_frame o { s with lb := b } live lg
    have hr := sp_do_rlb_rep o { s with lb := b } live lg
    refine ⟨hf.1.trans ht, hf.2.2.2.1, { live with log := (sp_logrlb o.logrlb lg).2 }, ?_,
      hf.2.1, rfl, hr.2⟩
    rw [hr.1]
    exact sp_replive_put s.rep _ live htype hl
  unfold sp_do at h
  cases hn : sp_vnewv o k v with
  | none =>
    simp only [hn] at h
    cases h
    exact ⟨ht, rfl, live, hl, Or.inl ⟨rfl, rfl, rfl⟩⟩
  | some n0 =>
    simp only [hn] at h
    have hm : ¬ s.txn = SPTMS := by rw [ht]; decide
    rw [if_neg hm] at h
    simp only [hl] at h
    by_cases hw : (sp_logput (o.logput 0) (sp_filesvp live.log)
        (sp_batchadd (sp_batchadd (sp_batchadd s.lb
          (spseg.vh (sp_vhmake o (o.crc32c (o.crc32c 0 k) v) k.length v.length op)))
          (spseg.buf k)) (spseg.buf v))).1 = -1
    · rw [if_pos hw] at h
      cases h
      obtain ⟨g1, g2, live', g3, g4⟩ := hrlb _ (sp_logput (o.logput 0) (sp_filesvp live.log)
        (sp_batchadd (sp_batchadd (sp_batchadd s.lb
          (spseg.vh (sp_vhmake o (o.crc32c (o.crc32c 0 k) v) k.length v.length op)))
          (spseg.buf k)) (spseg.buf v))).2
      exact ⟨g1, g2, live', g3, Or.inl g4⟩
    · rw [if_neg hw] at h
      by_cases hi : o.iset 0 = false
      · rw [if_pos hi] at h
        obtain ⟨g1, g2, live', g3, g4⟩ := hrlb _ (sp_logput (o.logput 0) (sp_filesvp live.log)
          (sp_batchadd (sp_batchadd (sp_batchadd s.lb
            (spseg.vh (sp_vhmake o (o.crc32c (o.crc32c 0 k) v) k.length v.length op)))
            (spseg.buf k)) (spseg.buf v))).2
        split at h
        · cases h
          exact ⟨g1, g2, live', g3, Or.inl g4⟩
        · cases h
          exact ⟨g1, g2, live', g3, Or.inl g4⟩
      · rw [if_neg hi] at h
        by_cases hz : s.env.mergewm = 0
        · rw [if_pos hz] at h
          cases h
        · rw [if_neg hz] at h
          have h2 := congrArg (fun x => x.2) (Option.some.inj h)
          simp only at h2
          rw [← h2]
          have hput := sp_replive_put s.rep
            { live with
              log := (sp_logput (o.logput 0) (sp_filesvp live.log)
                (sp_batchadd (sp_batchadd (sp_batchadd s.lb
                  (spseg.vh (sp_vhmake o (o.crc32c (o.crc32c 0 k) v) k.length v.length op)))
                  (spseg.buf k)) (spseg.buf v))).2,
              nupdate := live.nupdate + 1 } live htype hl
          have hlen := sp_isetl_length s.env.cmp s.i.l
            { sp_do_version o op k v n0 with epoch := live.epoch }
          split
          · rename_i hcond
            refine ⟨ht, rfl, _, hput, Or.inr ⟨hlen, rfl, fun _ => hcond.1⟩⟩
          · refine ⟨ht, rfl, _, hput, Or.inr ⟨hlen, rfl, fun hgt => ?_⟩⟩
            exact absurd hgt (Nat.lt_irrefl _)

theorem sp_set_count (o : spsys) (s : sp) (k v : Bytes) (r : Int × sp) (live : spepoch)
    (ht : s.txn = SPTSS) (hl : sp_replive s.rep = some live)
    (h : sp_set o s k v = some r) :
    r.2.txn = SPTSS ∧ r.2.env = s.env ∧
    ∃ live' : spepoch, sp_replive r.2.rep = some live' ∧
      ((r.2.i = s.i ∧ live'.nupdate = live.nupdate ∧ r.2.wakeups = s.wakeups) ∨
       (r.2.i.count ≤ s.i.count + 1 ∧ live'.nupdate = live.nupdate + 1 ∧
        (r.2.wakeups > s.wakeups → live'.nupdate % s.env.mergewm = 0))) := by
  have hguard : ∀ (t : spetype) (msg : String),
      (sp_e s t false msg).2.txn = SPTSS ∧ (sp_e s t false msg).2.env = s.env ∧
      ∃ live' : spepoch, sp_replive (sp_e s t false msg).2.rep = some live' ∧
        (((sp_e s t false msg).2.i = s.i ∧ live'.nupdate = live.nupdate ∧
            (sp_e s t false msg).2.wakeups = s.wakeups) ∨
         ((sp_e s t false msg).2.i.count ≤ s.i.count + 1 ∧ live'.nupdate = live.nupdate + 1 ∧
          ((sp_e s t false msg).2.wakeups > s.wakeups →
            live'.nupdate % s.env.mergewm = 0))) :=
    fun t msg => ⟨ht, rfl, live, hl, Or.inl ⟨rfl, rfl, rfl⟩⟩
  unfold sp_set at h
  split at h
  · cases h
    exact ⟨ht, rfl, live, hl, Or.inl ⟨rfl, rfl, rfl⟩⟩
  · split at h
    · cases h; exact hguard _ _
    · split at h
      · cases h; exact hguard _ _
      · split at h
        · cases h; exact hguard _ _
        · split at h
          · cases h; exact hguard _ _
          · exact sp_do_count o s SPSET k v r live ht hl h

/-- As long as fewer than `2 * mergewm` single-statement writes were tried
since the engine had an empty memory index and a fresh live epoch, the
merger never decides to merge: the write path wakes it only when `nupdate`
is a multiple of the watermark, that is at `nupdate = mergewm`, where the
count of the memory index is at most `mergewm`. -/
theorem sp_sets_merger_never (ws : List (spsys × Bytes × Bytes)) :
    ∀ (n : Nat) (s : sp) (live : spepoch) (q : List Bool × sp),
      s.txn = SPTSS → sp_replive s.rep = some live → s.i.count ≤ live.nupdate →
      live.nupdate ≤ n → n + ws.length < 2 * s.env.mergewm →
      sp_sets_merger ws s = some q → ∀ d ∈ q.1, d = false := by
  induction ws with
  | nil =>
    intro n s live q _ _ _ _ _ h
    simp only [sp_sets_merger, Option.some.injEq] at h
    rw [← h]
    simp
  | cons w ws ih =>
    intro n s live q ht hl hc hn hlen h
    obtain ⟨o, k, v⟩ := w
    unfold sp_sets_merger at h
    cases hr : sp_set o s k v with
    | none => simp [hr] at h
    | some r =>
      simp only [hr] at h
      obtain ⟨g1, g2, live', g3, g4⟩ := sp_set_count o s k v r live ht hl hr
      have hlen' : (n + 1) + ws.length < 2 * r.2.env.mergewm := by
        rw [g2]
        simp only [List.length_cons] at hlen
        omega
      have hstep : r.2.i.count ≤ live'.nupdate ∧ live'.nupdate ≤ n + 1 := by
        rcases g4 with ⟨a1, a2, _⟩ | ⟨a1, a2, _⟩
        · rw [a1, a2]; exact ⟨hc, by omega⟩
        · rw [a2]; exact ⟨by omega, by omega⟩
      have hrest : ∀ q' : List Bool × sp, sp_sets_merger ws r.2 = some q' →
          ∀ d ∈ q'.1, d = false :=
        fun q' hq' => ih (n + 1) r.2 live' q' g1 g3 hstep.1 hstep.2 hlen' hq'
      by_cases hwake : r.2.wakeups > s.wakeups
      · rw [if_pos hwake] at h
        have hnomerge : merger_merge r.2 = false := by
          rcases g4 with ⟨_, _, a3⟩ | ⟨a1, a2, a3⟩
          · exact absurd hwake (by rw [a3]; exact Nat.lt_irrefl _)
          · have hmod := a3 hwake
            obtain ⟨c, hcm⟩ := Nat.dvd_of_mod_eq_zero hmod
            have hlt : live'.nupdate < 2 * s.env.mergewm := by
              simp only [List.length_cons] at hlen
              omega
            have hc2 : c < 2 := by
              rw [hcm, Nat.mul_comm 2] at hlt
              exact Nat.lt_of_mul_lt_mul_left hlt
            have hle : live'.nupdate ≤ s.env.mergewm := by
              rw [hcm]
              have : c ≤ 1 := by omega
              calc s.env.mergewm * c ≤ s.env.mergewm * 1 := Nat.mul_le_mul_left _ this
                _ = s.env.mergewm := Nat.mul_one _
            unfold merger_merge
            rw [g2]
            simp only [decide_eq_false_iff_not, not_lt, gt_iff_lt]
            omega
        rw [hnomerge] at h
        simp only [Bool.false_eq_true, if_false] at h
        cases hq : sp_sets_merger ws r.2 with
        | none => simp [hq] at h
        | some q' =>
          simp only [hq, Option.some.injEq] at h
          rw [← h]
          intro d hd
          rcases List.mem_cons.1 hd with hd' | hd'
          · exact hd'
          · exact hrest q' hq d hd'
      · rw [if_neg hwake] at h
        exact hrest q h

/-- C18: the merger does not merge in the watermark scenario.  For every
environment with `mergewm >= 2` and every run of `mergewm + 1` single-statement
`sp_set` calls on a freshly opened empty engine, whatever the keys and the
outcomes, with the merger running to its wait point after each call that
woke it: the merger decides against merging at the wake-up of `sp_open` and
at every wake-up of the write path, because `sp_do` wakes it only when
`nupdate` is a multiple of `mergewm`, here at `nupdate = mergewm`, where the
count of the memory index does not exceed `mergewm`. -/
theorem C18_watermark_scenario_no_merge (env : spenv) (ws : List (spsys × Bytes × Bytes))
    (q : List Bool × sp) (hwm : 2 ≤ env.mergewm) (hlen : ws.length = env.mergewm + 1)
    (h : sp_sets_merger ws (sp_opened env) = some q) :
    merger_merge (sp_opened env) = false ∧ ∀ d ∈ q.1, d = false := by
  constructor
  · simp [merger_merge, sp_opened, spi.count]
  · refine sp_sets_merger_never ws 0 (sp_opened env)
      { epoch := 1, type := SPLIVE, nupdate := 0, log := { data := [spseg.logh], svp := 0 } }
      q rfl rfl (Nat.le_refl _) (Nat.le_refl _) ?_ h
    show 0 + ws.length < 2 * env.mergewm
    omega

/-- Witness for `C18_watermark_scenario_no_merge`: with `mergewm = 2` and the
three distinct keys "a", "b", "c" written with success, the write path wakes
the merger once, the merger decides against merging, and the run ends with
three versions in the memory index. -/
theorem C18_watermark_scenario_no_merge_witness :
    (2 : Nat) ≤ ({ sp_env_db with mergewm := 2 } : spenv).mergewm ∧
    ∃ q : List Bool × sp,
      sp_sets_merger [(sys_ok, [97], [49]), (sys_ok, [98], [49]), (sys_ok, [99], [49])]
        (sp_opened { sp_env_db with mergewm := 2 }) = some q ∧
      q.1 = [false] ∧ q.2.i.count = 3 ∧
      q.2.wakeups = (sp_opened { sp_env_db with mergewm := 2 }).wakeups + 1 ∧
      (merger_merge (sp_opened { sp_env_db with mergewm := 2 }) = false ∧
        ∀ d ∈ q.1, d = false) :=
  ⟨by decide, _, rfl, rfl, rfl, rfl,
    C18_watermark_scenario_no_merge { sp_env_db with mergewm := 2 }
      [(sys_ok, [97], [49]), (sys_ok, [98], [49]), (sys_ok, [99], [49])] _
      (by decide) rfl rfl⟩

/-! ## Record checksums -/

theorem sp_commit_flush_hpos (o : spsys) (j : Nat) (c : spcommit) (refs : List Nat)
    (hio : o.iovmax ≤ 3 * 512)
    (h1 : sizeof_spvh * refs.length = c.hpos)
    (h2 : ∀ r ∈ refs, r + sizeof_spvh ≤ c.hpos)
    (h3 : 3 * refs.length ≤ c.lb.length) :
    sizeof_spvh * (sp_commit_flushrefs o c refs).length = (sp_commit_flush o j c).hpos ∧
    (∀ r ∈ sp_commit_flushrefs o c refs, r + sizeof_spvh ≤ (sp_commit_flush o j c).hpos) ∧
    3 * (sp_commit_flushrefs o c refs).length ≤ (sp_commit_flush o j c).lb.length ∧
    (sp_commit_flush o j c).hpos ≤ 511 * sizeof_spvh := by
  unfold sp_commit_flush sp_commit_flushrefs
  by_cases hb : sp_batchensure o.iovmax c.lb 3 = false
  · rw [if_pos hb, if_pos hb]
    refine ⟨by simp, ?_, by simp, by simp⟩
    intro r hr
    cases hr
  · rw [if_neg hb, if_neg hb]
    refine ⟨h1, h2, h3, ?_⟩
    have hlen : c.lb.length + 3 ≤ o.iovmax := by simpa [sp_batchensure] using hb
    simp only [sizeof_spvh] at h1 ⊢
    omega

theorem sp_commit_hwrites_spec (o : spsys) (cmp : Bytes → Bytes → Int) (epoch : Nat)
    (hio : o.iovmax ≤ 3 * 512) :
    ∀ (l : List spv) (j : Nat) (c : spcommit) (refs : List Nat),
      sizeof_spvh * refs.length = c.hpos →
      (∀ r ∈ refs, r + sizeof_spvh ≤ c.hpos) →
      3 * refs.length ≤ c.lb.length →
      sp_commit_loop o cmp epoch l j c ≠ spcommitr.assertfail ∧
      (∀ c1, sp_commit_loop o cmp epoch l j c = spcommitr.ok c1 →
        (sp_commit_hwrites o cmp epoch l j c refs).length = l.length) ∧
      ∀ w ∈ sp_commit_hwrites o cmp epoch l j c refs,
        w.hpos ≤ 511 * sizeof_spvh ∧
        (∀ r ∈ w.refs, r + sizeof_spvh ≤ w.hpos) ∧
        sizeof_spvh * w.refs.length = w.hpos ∧ 3 * w.refs.length ≤ w.nlb := by
  intro l
  induction l with
  | nil =>
    intro j c refs _ _ _
    refine ⟨?_, ?_, ?_⟩
    · intro h
      simp [sp_commit_loop] at h
    · intro c1 _
      rfl
    · intro w hw
      simp [sp_commit_hwrites] at hw
  | cons v vs ih =>
    intro j c refs h1 h2 h3
    obtain ⟨f1, f2, f3, f4⟩ := sp_commit_flush_hpos o j c refs hio h1 h2 h3
    have hlt : (sp_commit_flush o j c).hpos < sizeof_spvh * 512 := by
      simp only [sizeof_spvh] at f4 ⊢
      omega
    have hhead : ∀ w : sphwrite,
        w = { hpos := (sp_commit_flush o j c).hpos, refs := sp_commit_flushrefs o c refs,
              nlb := (sp_commit_flush o j c).lb.length } →
        w.hpos ≤ 511 * sizeof_spvh ∧
        (∀ r ∈ w.refs, r + sizeof_spvh ≤ w.hpos) ∧
        sizeof_spvh * w.refs.length = w.hpos ∧ 3 * w.refs.length ≤ w.nlb := by
      intro w hw
      subst hw
      exact ⟨f4, f2, f1, f3⟩
    unfold sp_commit_loop sp_commit_hwrites
    by_cases hfail : sp_batchensure o.iovmax c.lb 3 = false ∧
        (sp_logput (o.logput j) c.log c.lb).1 = -1
    · rw [if_pos hfail, if_pos hfail]
      refine ⟨?_, ?_, ?_⟩
      · intro h
        cases h
      · intro c1 h
        cases h
      · intro w hw
        cases hw
    · rw [if_neg hfail, if_neg hfail, if_neg (not_not.mpr hlt), if_neg (not_not.mpr hlt)]
      by_cases hi : o.iset j = false
      · rw [if_pos hi, if_pos hi]
        refine ⟨?_, ?_, ?_⟩
        · intro h
          cases h
        · intro c1 h
          cases h
        · intro w hw
          rw [List.mem_singleton] at hw
          exact hhead w hw
      · rw [if_neg hi, if_neg hi]
        have g1 : sizeof_spvh *
            (sp_commit_flushrefs o c refs ++ [(sp_commit_flush o j c).hpos]).length
            = (sp_commit_flush o j c).hpos + sizeof_spvh := by
          simp only [List.length_append, List.length_singleton, sizeof_spvh] at f1 ⊢
          omega
        have g2 : ∀ r ∈ sp_commit_flushrefs o c refs ++ [(sp_commit_flush o j c).hpos],
            r + sizeof_spvh ≤ (sp_commit_flush o j c).hpos + sizeof_spvh := by
          intro r hr
          rw [List.mem_append, List.mem_singleton] at hr
          rcases hr with hr | hr
          · have := f2 r hr
            omega
          · rw [hr]
        have g3 : 3 * (sp_commit_flushrefs o c refs ++ [(sp_commit_flush o j c).hpos]).length
            ≤ (sp_batchadd (sp_batchadd (sp_batchadd (sp_commit_flush o j c).lb
                (spseg.vh (sp_vhmake o v.crc v.key.length v.value.length v.flags)))
                (spseg.buf v.key)) (spseg.buf v.value)).length := by
          simp only [sp_batchadd, List.length_append, List.length_singleton]
          omega
        obtain ⟨r1, r2, r3⟩ := ih (j + 1)
          { sp_commit_add o (sp_commit_flush o j c) { v with epoch := epoch } with
            i := (sp_iset cmp (sp_commit_flush o j c).i { v with epoch := epoch }).1,
            ins := (sp_commit_flush o j c).ins + 1 }
          (sp_commit_flushrefs o c refs ++ [(sp_commit_flush o j c).hpos]) g1 g2 g3
        refine ⟨r1, ?_, ?_⟩
        · intro c1 h
          rw [List.length_cons, List.length_cons, r2 c1 h]
        · intro w hw
          rw [List.mem_cons] at hw
          rcases hw with hw | hw
          · exact hhead w hw
          · exact r3 w hw

/-- C20: when the log batch holds at most `3 * 512` segments, then for every
staging index and whatever the batch holds when `sp_commit` is entered,
whatever the outcomes of the log writes and of the index inserts, the
assertion `hpos < sizeof(hbuf)` of `sp_commit` never fails: at each pass
through it `hpos` is a multiple of `sizeof(spvh)` and at most
`511 * sizeof(spvh)`; the batch references exactly `hpos / sizeof(spvh)`
headers of `hbuf`, each of which lies entirely below `hpos`, so the header
composed at `hpos` overwrites none of them; a loop that runs through makes
one such pass per staged version; and the flush leaves `hpos` and the batch
alone or, when the batch has no room for three more segments, resets `hpos`
to `0` together with emptying the batch. -/
theorem C20_commit_hpos_bound (o : spsys) (cmp : Bytes → Bytes → Int) (epoch : Nat)
    (l : List spv) (log : spfile) (lb : List spseg) (i : spi) (hio : o.iovmax ≤ 3 * 512) :
    sp_commit_loop o cmp epoch l 0
        { log := sp_filesvp log, lb := lb, hpos := 0, i := i, seen := [], ins := 0 }
      ≠ spcommitr.assertfail ∧
    (∀ w ∈ sp_commit_hwrites o cmp epoch l 0
        { log := sp_filesvp log, lb := lb, hpos := 0, i := i, seen := [], ins := 0 } [],
      w.hpos % sizeof_spvh = 0 ∧ w.hpos ≤ 511 * sizeof_spvh ∧ w.hpos < sizeof_spvh * 512 ∧
      (∀ r ∈ w.refs, r + sizeof_spvh ≤ w.hpos) ∧
      sizeof_spvh * w.refs.length = w.hpos ∧ 3 * w.refs.length ≤ w.nlb) ∧
    (∀ c1, sp_commit_loop o cmp epoch l 0
        { log := sp_filesvp log, lb := lb, hpos := 0, i := i, seen := [], ins := 0 }
        = spcommitr.ok c1 →
      (sp_commit_hwrites o cmp epoch l 0
        { log := sp_filesvp log, lb := lb, hpos := 0, i := i, seen := [], ins := 0 } []).length
        = l.length) ∧
    (∀ (j : Nat) (c : spcommit),
      ((sp_commit_flush o j c).hpos = c.hpos ∧ (sp_commit_flush o j c).lb = c.lb) ∨
      (sp_batchensure o.iovmax c.lb 3 = false ∧ (sp_commit_flush o j c).hpos = 0 ∧
        (sp_commit_flush o j c).lb = [])) ∧
    (∀ (s : sp) (live : spepoch),
      sp_commit_loop o s.env.cmp live.epoch s.itxn.l 0
        { log := sp_filesvp live.log, lb := s.lb, hpos := 0, i := s.i, seen := [], ins := 0 }
      ≠ spcommitr.assertfail) := by
  have hmain := sp_commit_hwrites_spec o cmp epoch hio
  obtain ⟨m1, m2, m3⟩ := hmain l 0
    { log := sp_filesvp log, lb := lb, hpos := 0, i := i, seen := [], ins := 0 } [] (by simp)
    (by intro r hr; cases hr) (by simp)
  refine ⟨m1, ?_, m2, ?_, ?_⟩
  · intro w hw
    obtain ⟨a1, a2, a3, a4⟩ := m3 w hw
    refine ⟨?_, a1, ?_, a2, a3, a4⟩
    · rw [← a3]
      exact Nat.mul_mod_right _ _
    · simp only [sizeof_spvh] at a1 ⊢
      omega
  · intro j c
    unfold sp_commit_flush
    by_cases hb : sp_batchensure o.iovmax c.lb 3 = false
    · rw [if_pos hb]
      exact Or.inr ⟨hb, rfl, rfl⟩
    · rw [if_neg hb]
      exact Or.inl ⟨rfl, rfl⟩
  · intro s live
    exact (sp_commit_hwrites_spec o s.env.cmp live.epoch hio s.itxn.l 0
      { log := sp_filesvp live.log, lb := s.lb, hpos := 0, i := s.i, seen := [], ins := 0 } []
      (by simp) (by intro r hr; cases hr) (by simp)).1

/-- Witness for `C20_commit_hpos_bound`: with a capacity of nine segments and
three stale segments in the batch at entry, the loop over three staged
versions passes the assertion at `hpos = 0` with no header referenced, at
`hpos = 15` with the header at `0` referenced, and, after the flush of the
full batch, at `hpos = 0` again with no header referenced. -/
theorem C20_commit_hpos_bound_witness :
    ({ sys_ok with iovmax := 9 } : spsys).iovmax ≤ 3 * 512 ∧
    sp_commit_hwrites { sys_ok with iovmax := 9 } cmpstd 1
        [sp_opversion sys_ok (spop.set [97] [49]), sp_opversion sys_ok (spop.set [98] [49]),
         sp_opversion sys_ok (spop.set [99] [49])] 0
        { log := sp_filesvp { data := [spseg.logh], svp := 0 },
          lb := [spseg.stale, spseg.stale, spseg.stale], hpos := 0,
          i := { l := [] }, seen := [], ins := 0 } []
      = [{ hpos := 0, refs := [], nlb := 3 }, { hpos := 15, refs := [0], nlb := 6 },
         { hpos := 0, refs := [], nlb := 0 }] ∧
    sp_commit_loop { sys_ok with iovmax := 9 } cmpstd 1
        [sp_opversion sys_ok (spop.set [97] [49]), sp_opversion sys_ok (spop.set [98] [49]),
         sp_opversion sys_ok (spop.set [99] [49])] 0
        { log := sp_filesvp { data := [spseg.logh], svp := 0 },
          lb := [spseg.stale, spseg.stale, spseg.stale], hpos := 0,
          i := { l := [] }, seen := [], ins := 0 }
      ≠ spcommitr.assertfail :=
  ⟨by decide, by decide,
    (C20_commit_hpos_bound { sys_ok with iovmax := 9 } cmpstd 1
      [sp_opversion sys_ok (spop.set [97] [49]), sp_opversion sys_ok (spop.set [98] [49]),
       sp_opversion sys_ok (spop.set [99] [49])]
      { data := [spseg.logh], svp := 0 } [spseg.stale, spseg.stale, spseg.stale]
      { l := [] } (by decide)).1⟩

end Sophia
